import Mathlib

/-!
# TFTGLCDAdapter: shallow embedding and verified properties

Embedding of `src/modules/utils/panel/panels/TFTGLCDAdapter.{h,cpp}`.

Conventions of the embedding.

* A C++ member function `void f(args)` becomes a Lean function
  `f args : State → State`; a function returning a value returns a pair.
* Unsigned machine integers are `Nat`, signed ones `Int`.  A parameter holds a value of
  its declared C type.  Where the source narrows a wider value into a field
  (`int → uint16_t`, `int → uint8_t`, `uint16_t → uint8_t`, `uint8_t++`) the
  embedding writes the reduction `% 2^w` explicitly.
* `framebuffer` is the memory seen through the `framebuffer` pointer: cell `i` is
  `framebuffer[i]`.  The block obtained from the allocator is the cells `0 .. fbsize-1`;
  the cells from `fbsize` on are whatever follows the block in memory, and an access
  there reads or writes that memory, as it does on the machine.
* Everything the driver does to the outside world (chip select, SPI transfers, waits,
  buzzer pin) is appended, in program order, to the trace `bus`.  The byte an SPI transfer
  returns, and the answer of `buzz_pin.connected()`, are parameters of the function that
  uses them.
* `buzz` returns an `Option`: `none` stands for the executions the source leaves undefined
  (overflow of the signed `long`, division by zero) or that never leave the loop.
-/

set_option linter.unusedVariables false

namespace TFTGLCDAdapter

/-! ## Definitions -/

/-- Command GET_SPI_DATA of `enum Commands`. -/
abbrev GET_SPI_DATA : Nat := 0
/-- Command READ_BUTTONS: read buttons. -/
abbrev READ_BUTTONS : Nat := 1
/-- Command READ_ENCODER: read encoder. -/
abbrev READ_ENCODER : Nat := 2
/-- Command LCD_WRITE: write to LCD. -/
abbrev LCD_WRITE : Nat := 3
/-- Command BUZZER: beep buzzer. -/
abbrev BUZZER : Nat := 4
/-- Command CONTRAST: set contrast. -/
abbrev CONTRAST : Nat := 5
/-- Command GET_LCD_ROW: read LCD rows number from adapter. -/
abbrev GET_LCD_ROW : Nat := 0xE0
/-- Command GET_LCD_COL: read LCD columns number from adapter. -/
abbrev GET_LCD_COL : Nat := 0xE1
/-- Command CLEAR_BUFFER (for Marlin). -/
abbrev CLEAR_BUFFER : Nat := 0xE2
/-- Command REDRAW (for Marlin). -/
abbrev REDRAW : Nat := 0xE3
/-- Command INIT_ADAPTER: initialize. -/
abbrev INIT_ADAPTER : Nat := 0xFE

/-- The macro `LED_MASK`. -/
abbrev LED_MASK : Nat := 0x0f
/-- The macro `PIC_MASK`. -/
abbrev PIC_MASK : Nat := 0x3f

/-- One externally visible action of the driver, as recorded in the trace. -/
inductive BusEvent where
  /-- The call `this->cs.set(level)`. -/
  | cs (level : Nat)
  /-- The call `this->spi->write(value)`. -/
  | spi (value : Nat)
  /-- The call `wait_us(n)`. -/
  | wait_us (n : Nat)
  /-- The call `safe_delay_us(n)`. -/
  | safe_delay_us (n : Nat)
  /-- The call `safe_delay_ms(n)`. -/
  | safe_delay_ms (n : Nat)
  /-- The call `this->buzz_pin.set(level)`. -/
  | buzz_pin (level : Nat)
  deriving DecidableEq, Repr

/-- The data members of `class TFTGLCDAdapter` together with the trace of bus actions. -/
structure State where
  /-- Memory behind `unsigned char *framebuffer`. -/
  framebuffer : Nat → Nat
  /-- Trace of the actions on `spi`, `cs` and the delay routines. -/
  bus : List BusEvent
  /-- Field `uint16_t text_lines`. -/
  text_lines : Nat
  /-- Field `uint8_t chars_per_line`. -/
  chars_per_line : Nat
  /-- Field `uint16_t fbsize`. -/
  fbsize : Nat
  /-- Field `uint8_t tx`. -/
  tx : Nat
  /-- Field `uint8_t ty`. -/
  ty : Nat
  /-- Field `uint8_t picBits`. -/
  picBits : Nat
  /-- Field `uint8_t ledBits`. -/
  ledBits : Nat
  /-- Field `uint8_t contrast`. -/
  contrast : Nat
  /-- Field `uint8_t gliph_update_cnt`. -/
  gliph_update_cnt : Nat
  /-- Field `uint8_t panel_present = 0`. -/
  panel_present : Nat
  /-- Field `uint8_t refresh_counts = 0`. -/
  refresh_counts : Nat
  /-- Field `bool has_fan = 0`. -/
  has_fan : Bool
  /-- Field `uint16_t fan_percent = 0`. -/
  fan_percent : Nat

/-- The assignment `p[i] = v` on byte memory. -/
def store (mem : Nat → Nat) (i v : Nat) : Nat → Nat :=
  fun j => if j = i then v else mem j

/-- The call `memset(p, c, n)`: the first `n` cells become `c`. -/
def memset (mem : Nat → Nat) (c n : Nat) : Nat → Nat :=
  fun j => if j < n then c else mem j

/-- The call `this->cs.set(level)`. -/
def cs_set (level : Nat) (s : State) : State :=
  { s with bus := s.bus ++ [BusEvent.cs level] }

/-- The call `this->spi->write(value)`, its return value left to the caller. -/
def spi_write (value : Nat) (s : State) : State :=
  { s with bus := s.bus ++ [BusEvent.spi value] }

/-- The call `wait_us(n)`. -/
def wait_us (n : Nat) (s : State) : State :=
  { s with bus := s.bus ++ [BusEvent.wait_us n] }

/-- The call `safe_delay_us(n)`. -/
def safe_delay_us (n : Nat) (s : State) : State :=
  { s with bus := s.bus ++ [BusEvent.safe_delay_us n] }

/-- The call `safe_delay_ms(n)`. -/
def safe_delay_ms (n : Nat) (s : State) : State :=
  { s with bus := s.bus ++ [BusEvent.safe_delay_ms n] }

/-- `TFTGLCDAdapter::detect_panel`.  `rows_resp` and `cols_resp` are the values returned
by the two `spi->write(GET_SPI_DATA)` transfers. -/
def detect_panel (rows_resp cols_resp : Nat) (s : State) : State :=
  let s := cs_set 0 s
  let s := spi_write GET_LCD_ROW s
  let s := spi_write GET_SPI_DATA s
  let s := { s with text_lines := rows_resp % 65536 }
  let s := cs_set 1 s
  if s.text_lines < 10 ∨ s.text_lines > 20 then
    { s with text_lines := 0 }
  else
    let s := cs_set 0 s
    let s := spi_write GET_LCD_COL s
    let s := spi_write GET_SPI_DATA s
    let s := { s with chars_per_line := (cols_resp % 65536) % 256 }
    let s := cs_set 1 s
    let s := { s with fbsize := (s.chars_per_line * s.text_lines + 2) % 65536 }
    { s with panel_present := 1 }

/-- `TFTGLCDAdapter::clear`.  `fbsize` is at least 2 whenever `panel_present` is set
(see `detect_panel_fbsize_ge_two`), so `fbsize - 2` and `fbsize - 1` do not go below 0. -/
def clear (s : State) : State :=
  if s.panel_present = 0 then s
  else
    let s := { s with framebuffer := memset s.framebuffer 32 (s.fbsize - 2) }
    let s := { s with framebuffer := store s.framebuffer (s.fbsize - 1) 0 }
    let s := { s with framebuffer := store s.framebuffer (s.fbsize - 2) 0 }
    { s with tx := 0, ty := 0, picBits := 0, gliph_update_cnt := 0 }

/-- `TFTGLCDAdapter::setCursor`. -/
def setCursor (col row : Nat) (s : State) : State :=
  { s with tx := col, ty := row }

/-- `TFTGLCDAdapter::home`. -/
def home (s : State) : State :=
  { s with tx := 0, ty := 0 }

/-- `TFTGLCDAdapter::init`. -/
def init (s : State) : State :=
  if s.panel_present = 0 then s
  else
    let s := cs_set 0 s
    let s := spi_write INIT_ADAPTER s
    let s := spi_write 0 s
    let s := wait_us 10 s
    let s := cs_set 1 s
    safe_delay_ms 100 s

/-- The loop `for (int i = 0; i < len; ++i) framebuffer[pos++] = line[i];` of `write`:
`n` iterations remain, `i` is the loop variable, `pos` the `uint8_t` offset. -/
def write_loop (line : Nat → Nat) : Nat → Nat → Nat → (Nat → Nat) → (Nat → Nat)
  | 0, _, _, fb => fb
  | n + 1, i, pos, fb => write_loop line n (i + 1) ((pos + 1) % 256) (store fb pos (line i))

/-- `TFTGLCDAdapter::write`.  `line` is the memory behind `const char *line`. -/
def write (line : Nat → Nat) (len : Int) (s : State) : State :=
  if s.panel_present = 0 then s
  else
    let pos := (s.tx + s.ty * s.chars_per_line) % 256
    { s with framebuffer := write_loop line len.toNat 0 pos s.framebuffer }

/-- The bytes streamed by the loop
`for (int x = 0; x < fbsize; x++) this->spi->write(*(fbstart++));`. -/
def stream (mem : Nat → Nat) (n : Nat) : List BusEvent :=
  (List.range n).map (fun x => BusEvent.spi (mem x))

/-- `TFTGLCDAdapter::send_pic`.  Its only caller passes `framebuffer` as `fbstart`, so the
stream is read from the framebuffer itself. -/
def send_pic (s : State) : State :=
  let s := { s with framebuffer := store s.framebuffer (s.fbsize - 2) (s.picBits &&& PIC_MASK) }
  let s := { s with framebuffer := store s.framebuffer (s.fbsize - 1) (s.ledBits &&& LED_MASK) }
  let s := if s.gliph_update_cnt ≠ 0 then { s with gliph_update_cnt := s.gliph_update_cnt - 1 }
           else { s with picBits := 0 }
  let s := if s.framebuffer 20 = 88 ∧ s.has_fan = true then
             { s with framebuffer := store s.framebuffer (s.chars_per_line * 4) (s.fan_percent % 256) }
           else s
  let s := cs_set 0 s
  let s := spi_write LCD_WRITE s
  let s := { s with bus := s.bus ++ stream s.framebuffer s.fbsize }
  let s := wait_us 10 s
  cs_set 1 s

/-- `TFTGLCDAdapter::on_refresh`. -/
def on_refresh (now : Bool) (s : State) : State :=
  if s.panel_present = 0 then s
  else
    let s := { s with refresh_counts := (s.refresh_counts + 1) % 256 }
    if now = true ∨ s.refresh_counts = 2 then
      let s := send_pic s
      { s with refresh_counts := 0 }
    else s

/-- `TFTGLCDAdapter::bltGlyph`.  The parameters `glyph`, `span`, `x_offset` and `y_offset`
are not used by the body. -/
def bltGlyph (x y w h : Int) (s : State) : State :=
  if w = 80 then { s with picBits := 0x01 }
  else
    let s := { s with gliph_update_cnt := 20 }
    if x = 0 then { s with picBits := (s.picBits ||| 0x02) % 256 }
    else if x = 27 then { s with picBits := (s.picBits ||| 0x04) % 256 }
    else if x = 55 then { s with picBits := (s.picBits ||| 0x08) % 256 }
    else if x = 83 then { s with picBits := (s.picBits ||| 0x10) % 256 }
    else if x = 111 then { s with picBits := (s.picBits ||| 0x20) % 256 }
    else s

/-- The values of the macros `LED_HOTEND_ON`, `LED_BED_ON`, `LED_FAN_ON` and `LED_HOT`.
They are defined in `LcdBase.h`, which is not part of the sources, and are therefore a
parameter of `setLed`. -/
structure LedIds where
  /-- Value of `LED_HOTEND_ON`. -/
  hotend_on : Int
  /-- Value of `LED_BED_ON`. -/
  bed_on : Int
  /-- Value of `LED_FAN_ON`. -/
  fan_on : Int
  /-- Value of `LED_HOT`. -/
  hot : Int
  deriving DecidableEq, Repr

/-- The four macros are pairwise different, as the labels of one `switch` have to be. -/
def LedIds.distinct (ids : LedIds) : Prop :=
  ids.hotend_on ≠ ids.bed_on ∧ ids.hotend_on ≠ ids.fan_on ∧ ids.hotend_on ≠ ids.hot ∧
  ids.bed_on ≠ ids.fan_on ∧ ids.bed_on ≠ ids.hot ∧ ids.fan_on ≠ ids.hot

instance (ids : LedIds) : Decidable ids.distinct := by
  unfold LedIds.distinct; infer_instance

/-- The statement `ledBits &= ~b` on a `uint8_t`: `~b` is taken on 32-bit `int`, the
result is narrowed back to 8 bits. -/
def clear_bits (m b : Nat) : Nat :=
  (m &&& (4294967295 - b)) % 256

/-- `TFTGLCDAdapter::setLed`. -/
def setLed (ids : LedIds) (led : Int) (onoff : Bool) (s : State) : State :=
  if onoff = true then
    if led = ids.hotend_on then { s with ledBits := (s.ledBits ||| 1) % 256 }
    else if led = ids.bed_on then { s with ledBits := (s.ledBits ||| 2) % 256 }
    else if led = ids.fan_on then { s with ledBits := (s.ledBits ||| 4) % 256 }
    else if led = ids.hot then { s with ledBits := (s.ledBits ||| 8) % 256 }
    else s
  else
    if led = ids.hotend_on then { s with ledBits := clear_bits s.ledBits 1 }
    else if led = ids.bed_on then { s with ledBits := clear_bits s.ledBits 2 }
    else if led = ids.fan_on then { s with ledBits := clear_bits s.ledBits 4 }
    else if led = ids.hot then { s with ledBits := clear_bits s.ledBits 8 }
    else s

/-- `TFTGLCDAdapter::readButtons`.  `resp` is the value returned by
`spi->write(GET_SPI_DATA)`. -/
def readButtons (resp : Nat) (s : State) : State × Nat :=
  if s.panel_present = 0 then (s, 0)
  else
    let s := cs_set 0 s
    let s := spi_write READ_BUTTONS s
    let s := safe_delay_us 10 s
    let s := spi_write GET_SPI_DATA s
    let b := resp % 256
    let s := safe_delay_us 10 s
    let s := cs_set 1 s
    (s, b)

/-- The conversion of an `int` to `int8_t`. -/
def to_int8 (v : Nat) : Int :=
  if v % 256 < 128 then ((v % 256 : Nat) : Int) else ((v % 256 : Nat) : Int) - 256

/-- `TFTGLCDAdapter::readEncoderDelta`.  `resp` is the value returned by
`spi->write(GET_SPI_DATA)`. -/
def readEncoderDelta (resp : Nat) (s : State) : State × Int :=
  if s.panel_present = 0 then (s, 0)
  else
    let s := cs_set 0 s
    let s := spi_write READ_ENCODER s
    let s := safe_delay_us 10 s
    let s := spi_write GET_SPI_DATA s
    let e := to_int8 resp
    let s := safe_delay_us 10 s
    let s := cs_set 1 s
    (s, e)

/-- `TFTGLCDAdapter::setContrast`. -/
def setContrast (c : Nat) (s : State) : State :=
  let s := { s with contrast := c }
  if s.panel_present = 0 then s
  else
    let s := cs_set 0 s
    let s := spi_write CONTRAST s
    let s := safe_delay_us 10 s
    let s := spi_write c s
    let s := safe_delay_us 10 s
    cs_set 1 s

/-- The inline setter `set_fan_percent` of the header. -/
def set_fan_percent (percent : Nat) (s : State) : State :=
  { s with fan_percent := percent }

/-- The inline setter `set_has_fan` of the header. -/
def set_has_fan (present : Bool) (s : State) : State :=
  { s with has_fan := present }

/-- The frame one `send_pic` appends to the trace when the buffer it streams is `mem`. -/
def frame (mem : Nat → Nat) (n : Nat) : List BusEvent :=
  [BusEvent.cs 0, BusEvent.spi LCD_WRITE] ++ stream mem n ++ [BusEvent.wait_us 10, BusEvent.cs 1]

/-- A successive run of `on_refresh` calls, one per element of `nows`. -/
def refreshes : List Bool → State → State
  | [], s => s
  | now :: rest, s => refreshes rest (on_refresh now s)

/-- Number of frames opened in a trace: each `send_pic` asserts chip select once. -/
def frames (b : List BusEvent) : Nat :=
  b.count (BusEvent.cs 0)

/-- What `detect_panel` establishes when it accepts the adapter, for a driver whose
fields hold values of their C types: the presence flag is set, the rows lie in `[10, 20]`,
the columns are a byte and `fbsize` is `cols * rows + 2`. -/
def Present (s : State) : Prop :=
  s.panel_present = 1 ∧ 10 ≤ s.text_lines ∧ s.text_lines ≤ 20 ∧ s.chars_per_line < 256 ∧
  s.fbsize = s.chars_per_line * s.text_lines + 2

instance (s : State) : Decidable (Present s) := by
  unfold Present; infer_instance

/-- A driver as the member initialisers leave it on a blank memory: all fields 0. -/
def State.zero : State :=
  { framebuffer := fun _ => 0, bus := [], text_lines := 0, chars_per_line := 0, fbsize := 0,
    tx := 0, ty := 0, picBits := 0, ledBits := 0, contrast := 0, gliph_update_cnt := 0,
    panel_present := 0, refresh_counts := 0, has_fan := false, fan_percent := 0 }

/-- A Present driver of 20 rows and 20 columns (402 bytes of buffer) after `clear()`:
every one of its 400 cells holds the blank. -/
def grid20x20 : State :=
  clear (detect_panel 20 20 State.zero)

/-- The driver detected with 10 rows and 20 columns after `clear()`: icon mask, decay
counter and cursor are 0. -/
def grid10x20 : State :=
  clear (detect_panel 10 20 State.zero)

/-- The logo glyph (`w = 80`) requested on `grid10x20`. -/
def logo_request : State :=
  bltGlyph 0 0 80 0 grid10x20

/-- The hotend-1 icon (`x = 0`, `w = 10`) requested after the logo on `grid10x20`. -/
def icon_request : State :=
  bltGlyph 0 0 10 10 logo_request

/-- The regional icon regions of `bltGlyph`: the `x` of each `case` with the bit it sets. -/
def icon_regions : List (Int × Nat) :=
  [(0, 0x02), (27, 0x04), (55, 0x08), (83, 0x10), (111, 0x20)]

/-- The four named LEDs of `setLed`: the macro of each `case` with the mask bit it drives. -/
def led_bits (ids : LedIds) : List (Int × Nat) :=
  [(ids.hotend_on, 1), (ids.bed_on, 2), (ids.fan_on, 4), (ids.hot, 8)]

/-- A driver whose adapter answered 10 rows and 0 columns: `fbsize` is 2, the buffer is
the two flag bytes.  The fan icon has been requested (icon mask 0x20), a fan is present at
50 percent, and the byte 20 places after the start of the buffer, outside the two-byte
block, happens to be 'X' (0x58). -/
def zero_columns : State :=
  set_fan_percent 50 (set_has_fan true (bltGlyph 111 0 10 10
    { detect_panel 10 0 State.zero with framebuffer := fun i => if i = 20 then 88 else 0 }))

/-- The memory behind the string literal `"READY"`. -/
def READY : Nat → Nat :=
  fun i => [82, 69, 65, 68, 89].getD i 0

/-- The 202 bytes expected on the wire in the READY scenario: the five letters, 195
blanks, icon byte 0 and LED byte 0. -/
def READY_screen : List Nat :=
  [82, 69, 65, 68, 89] ++ List.replicate 195 32 ++ [0, 0]

/-- The call `this->buzz_pin.set(level)`. -/
def buzz_pin_set (level : Nat) (s : State) : State :=
  { s with bus := s.bus ++ [BusEvent.buzz_pin level] }

/-- The 32-bit pattern of a `long` or `int` argument handed to `spi->write(int)`. -/
def int_bits (v : Int) : Nat :=
  (v % 4294967296).toNat

/-- The loop `while (elapsed_time < duration) { ... elapsed_time += (period); }` of `buzz`,
`duration` already in microseconds.  `fuel` bounds the iterations; running out of it, or
leaving the range of `long` in `elapsed_time += (period)`, gives `none`. -/
def buzz_loop (duration period : Int) : Nat → Int → State → Option State
  | 0, elapsed_time, s => if elapsed_time < duration then none else some s
  | fuel + 1, elapsed_time, s =>
    if elapsed_time < duration then
      let s := buzz_pin_set 1 s
      let s := wait_us (period / 2).toNat s
      let s := buzz_pin_set 0 s
      let s := wait_us (period / 2).toNat s
      if 2147483647 < elapsed_time + period then none
      else buzz_loop duration period fuel (elapsed_time + period) s
    else some s

/-- `TFTGLCDAdapter::buzz`.  `connected` is the value of `this->buzz_pin.connected()`.
The result is `none` where the source leaves the behaviour undefined: `duration *= 1000`
outside the 32-bit `long`, or `1000000 / freq` with `freq = 0`.  As `period` is at least 1
whenever it is defined, the loop makes at most `duration` iterations, which is the fuel
given to `buzz_loop`. -/
def buzz (connected : Bool) (duration : Int) (freq : Nat) (s : State) : Option State :=
  if connected = true then
    let duration := duration * 1000
    if duration < -2147483648 ∨ 2147483647 < duration then none
    else if freq = 0 then none
    else
      let period : Int := ((1000000 / freq : Nat) : Int)
      let elapsed_time : Int := 0
      buzz_loop duration period duration.toNat elapsed_time s
  else if s.panel_present ≠ 0 then
    let s := cs_set 0 s
    let s := spi_write BUZZER s
    let s := spi_write ((duration % 65536).toNat / 256) s
    let s := spi_write (int_bits duration) s
    let s := spi_write (freq / 256) s
    let s := spi_write freq s
    let s := safe_delay_us 10 s
    some (cs_set 1 s)
  else some s

/-- Modelled from the spec: `mbed::SPI`, the transport behind `spi->write`, is not part of
the sources.  The spec has every exchange carry single payload bytes ("1 byte", "2-byte
duration (big-endian)"), so what a transfer puts on the wire is the low byte of the
argument of `spi->write`.  `wire_bytes` lists these bytes for a trace. -/
def wire_bytes : List BusEvent → List Nat
  | [] => []
  | BusEvent.spi value :: rest => value % 256 :: wire_bytes rest
  | _ :: rest => wire_bytes rest

/-- The sum of the arguments of all `wait_us` calls of a trace, in microseconds. -/
def waited : List BusEvent → Nat
  | [] => 0
  | BusEvent.wait_us n :: rest => n + waited rest
  | _ :: rest => waited rest

/-- The trace of `n` cycles of the local buzzer: pin high, half a period, pin low, half a
period. -/
def buzz_cycles (half : Nat) : Nat → List BusEvent
  | 0 => []
  | n + 1 => [BusEvent.buzz_pin 1, BusEvent.wait_us half, BusEvent.buzz_pin 0,
      BusEvent.wait_us half] ++ buzz_cycles half n

/-- The buffer indices `clear` subscripts or fills: the `fbsize - 2` bytes of the
`memset`, then `framebuffer[fbsize - 1]` and `framebuffer[fbsize - 2]`. -/
def clear_indices (s : State) : List Nat :=
  List.range (s.fbsize - 2) ++ [s.fbsize - 1, s.fbsize - 2]

/-- The buffer indices `send_pic` subscripts, in program order: the two flag bytes, the
marker cell 20, the overlay cell `chars_per_line * 4` when the overlay is applied, and the
`fbsize` bytes streamed from `fbstart`. -/
def send_pic_indices (s : State) : List Nat :=
  let fb := store (store s.framebuffer (s.fbsize - 2) (s.picBits &&& PIC_MASK))
    (s.fbsize - 1) (s.ledBits &&& LED_MASK)
  [s.fbsize - 2, s.fbsize - 1, 20] ++
    (if fb 20 = 88 ∧ s.has_fan = true then [s.chars_per_line * 4] else []) ++
    List.range s.fbsize

/-- The byte `send_pic` compares with 'X': `framebuffer[20]` as it is read, after the two
flag bytes have been stored. -/
def marker_byte (s : State) : Nat :=
  store (store s.framebuffer (s.fbsize - 2) (s.picBits &&& PIC_MASK))
    (s.fbsize - 1) (s.ledBits &&& LED_MASK) 20

/-- The 10 x 20 driver showing a main screen: 'X' in cell 20 (column 0 of row 1), a fan
present, fan percentage 300. -/
def fan_screen : State :=
  set_fan_percent 300 (set_has_fan true (write (fun _ => 88) 1 (setCursor 0 1 grid10x20)))

/-- A driver whose adapter answered 10 rows and 0 columns (`fbsize = 2`), with a fan
present at 1 percent and an 'X' in the byte 20 places after the buffer start, on which the
hotend-2 icon (`x = 27`, bit 0x04) has just been requested. -/
def zero_columns_icon : State :=
  bltGlyph 27 0 10 10 (set_fan_percent 1 (set_has_fan true
    { detect_panel 10 0 State.zero with framebuffer := fun i => if i = 20 then 88 else 0 }))

theorem or_mod_256 (p b : Nat) : (p ||| b) % 256 = p % 256 ||| b % 256 := by
  apply Nat.eq_of_testBit_eq
  intro i
  rw [show (256 : Nat) = 2 ^ 8 from rfl]
  simp only [Nat.testBit_mod_two_pow, Nat.testBit_or, Bool.and_or_distrib_left]

theorem and_mod_256 (p b : Nat) : (p &&& b) % 256 = p % 256 &&& b % 256 := by
  apply Nat.eq_of_testBit_eq
  intro i
  rw [show (256 : Nat) = 2 ^ 8 from rfl]
  simp only [Nat.testBit_mod_two_pow, Nat.testBit_and]
  cases decide (i < 8) <;> simp

set_option maxRecDepth 100000 in
theorem region_bit_byte : ∀ q, q < 256 → ∀ b ∈ [2, 4, 8, 16, 32],
    (q ||| b) % 256 &&& b = b ∧ (q &&& 1 = 1 → (q ||| b) % 256 &&& 1 = 1) := by
  decide

set_option maxRecDepth 1000000 in
theorem led_bits_byte : ∀ m, m < 256 → ∀ b ∈ [1, 2, 4, 8],
    (m ||| b) % 256 = m ||| b ∧ m ||| b < 256 ∧ clear_bits m b < 256 ∧
    clear_bits m b = m &&& (255 - b) ∧
    ((m ||| b) ||| b) % 256 = m ||| b ∧ clear_bits (clear_bits m b) b = clear_bits m b := by
  decide

theorem led_bit_complement : ∀ b ∈ [1, 2, 4, 8], ∀ j, j < 8 →
    (255 - b).testBit j = !b.testBit j := by
  decide

theorem byte_testBit_high (m j : Nat) (hm : m < 256) (hj : 8 ≤ j) : m.testBit j = false := by
  apply Nat.testBit_lt_two_pow
  calc m < 2 ^ 8 := hm
    _ ≤ 2 ^ j := Nat.pow_le_pow_right (by decide) hj

/-- Setting a regional bit in an 8-bit mask sets that bit and keeps the logo bit. -/
theorem region_bit_set (p b : Nat) (hb : b ∈ [2, 4, 8, 16, 32]) :
    (p ||| b) % 256 &&& b = b ∧ (p &&& 1 = 1 → (p ||| b) % 256 &&& 1 = 1) := by
  have hlt : b < 256 := by
    simp only [List.mem_cons, List.mem_singleton, List.not_mem_nil, or_false] at hb
    omega
  have hq := region_bit_byte (p % 256) (Nat.mod_lt _ (by decide)) b hb
  have e : (p ||| b) % 256 = (p % 256 ||| b) % 256 := by
    rw [or_mod_256, or_mod_256 (p % 256), Nat.mod_mod]
  rw [e]
  refine ⟨hq.1, fun h1 => hq.2 ?_⟩
  rw [Nat.and_one_is_mod] at h1 ⊢
  omega

/-! ### Field-by-field description of `send_pic` and `on_refresh` -/

theorem send_pic_bus (s : State) :
    (send_pic s).bus = s.bus ++ frame (send_pic s).framebuffer s.fbsize := by
  unfold send_pic frame
  simp only [cs_set, spi_write, wait_us]
  split <;> split <;> simp [List.append_assoc]

theorem send_pic_fields (s : State) :
    (send_pic s).fbsize = s.fbsize ∧ (send_pic s).chars_per_line = s.chars_per_line ∧
    (send_pic s).text_lines = s.text_lines ∧ (send_pic s).panel_present = s.panel_present ∧
    (send_pic s).refresh_counts = s.refresh_counts ∧ (send_pic s).ledBits = s.ledBits ∧
    (send_pic s).tx = s.tx ∧ (send_pic s).ty = s.ty ∧ (send_pic s).has_fan = s.has_fan ∧
    (send_pic s).fan_percent = s.fan_percent ∧ (send_pic s).contrast = s.contrast := by
  unfold send_pic
  simp only [cs_set, spi_write, wait_us]
  split <;> split <;> simp

theorem send_pic_picBits (s : State) :
    (send_pic s).picBits = if s.gliph_update_cnt ≠ 0 then s.picBits else 0 := by
  unfold send_pic
  simp only [cs_set, spi_write, wait_us]
  split <;> split <;> simp_all

theorem send_pic_cnt (s : State) :
    (send_pic s).gliph_update_cnt = s.gliph_update_cnt - 1 := by
  unfold send_pic
  simp only [cs_set, spi_write, wait_us]
  split <;> split <;> simp_all

theorem frames_frame (mem : Nat → Nat) (n : Nat) : frames (frame mem n) = 1 := by
  unfold frames frame stream
  simp [List.count_cons, List.count_append, List.count_eq_zero]

theorem frames_append (a b : List BusEvent) : frames (a ++ b) = frames a + frames b := by
  unfold frames
  exact List.count_append _ _ _

theorem on_refresh_skip (now : Bool) (s : State) (hp : s.panel_present ≠ 0)
    (h : ¬ (now = true ∨ (s.refresh_counts + 1) % 256 = 2)) :
    on_refresh now s = { s with refresh_counts := (s.refresh_counts + 1) % 256 } := by
  unfold on_refresh
  rw [if_neg hp]
  simp only
  rw [if_neg h]

theorem on_refresh_send (now : Bool) (s : State) (hp : s.panel_present ≠ 0)
    (h : now = true ∨ (s.refresh_counts + 1) % 256 = 2) :
    on_refresh now s =
      { send_pic { s with refresh_counts := (s.refresh_counts + 1) % 256 } with
        refresh_counts := 0 } := by
  unfold on_refresh
  rw [if_neg hp]
  simp only
  rw [if_pos h]

theorem on_refresh_send_bus (now : Bool) (s : State) (hp : s.panel_present ≠ 0)
    (h : now = true ∨ (s.refresh_counts + 1) % 256 = 2) :
    (on_refresh now s).bus = s.bus ++ frame (on_refresh now s).framebuffer s.fbsize ∧
    (on_refresh now s).refresh_counts = 0 := by
  rw [on_refresh_send now s hp h]
  refine ⟨?_, rfl⟩
  simp only [send_pic_bus]

theorem on_refresh_geometry (now : Bool) (s : State) :
    (on_refresh now s).panel_present = s.panel_present ∧
    (on_refresh now s).fbsize = s.fbsize ∧
    (on_refresh now s).chars_per_line = s.chars_per_line ∧
    (on_refresh now s).text_lines = s.text_lines ∧
    (on_refresh now s).ledBits = s.ledBits := by
  unfold on_refresh
  split
  · exact ⟨rfl, rfl, rfl, rfl, rfl⟩
  · simp only
    split
    · simp [send_pic_fields]
    · exact ⟨rfl, rfl, rfl, rfl, rfl⟩

theorem refreshes_geometry (nows : List Bool) :
    ∀ s : State, (refreshes nows s).panel_present = s.panel_present ∧
      (refreshes nows s).fbsize = s.fbsize ∧
      (refreshes nows s).chars_per_line = s.chars_per_line ∧
      (refreshes nows s).text_lines = s.text_lines ∧
      (refreshes nows s).ledBits = s.ledBits := by
  induction nows with
  | nil => intro s; exact ⟨rfl, rfl, rfl, rfl, rfl⟩
  | cons now rest ih =>
    intro s
    have h1 := ih (on_refresh now s)
    have h2 := on_refresh_geometry now s
    simp only [refreshes]
    refine ⟨?_, ?_, ?_, ?_, ?_⟩
    · rw [h1.1, h2.1]
    · rw [h1.2.1, h2.2.1]
    · rw [h1.2.2.1, h2.2.2.1]
    · rw [h1.2.2.2.1, h2.2.2.2.1]
    · rw [h1.2.2.2.2, h2.2.2.2.2]

/-- What one `on_refresh` call does to the icon mask, the decay counter and the number of
frames on the bus: either nothing, or one frame more, the counter one down when it was
non-zero and the mask zeroed when it was zero. -/
theorem on_refresh_icons (now : Bool) (s : State) :
    ((on_refresh now s).picBits = s.picBits ∧
      (on_refresh now s).gliph_update_cnt = s.gliph_update_cnt ∧
      frames (on_refresh now s).bus = frames s.bus) ∨
    (frames (on_refresh now s).bus = frames s.bus + 1 ∧
      (on_refresh now s).gliph_update_cnt = s.gliph_update_cnt - 1 ∧
      (on_refresh now s).picBits = if s.gliph_update_cnt ≠ 0 then s.picBits else 0) := by
  by_cases hp : s.panel_present = 0
  · left
    unfold on_refresh
    rw [if_pos hp]
    exact ⟨rfl, rfl, rfl⟩
  · by_cases hc : now = true ∨ (s.refresh_counts + 1) % 256 = 2
    · right
      have hb := (on_refresh_send_bus now s hp hc).1
      refine ⟨?_, ?_, ?_⟩
      · rw [hb, frames_append, frames_frame]
      · rw [on_refresh_send now s hp hc]
        simp only [send_pic_cnt]
      · rw [on_refresh_send now s hp hc]
        simp only [send_pic_picBits]
    · left
      rw [on_refresh_skip now s hp hc]
      exact ⟨rfl, rfl, rfl⟩

theorem refreshes_frames_mono (nows : List Bool) :
    ∀ s : State, frames s.bus ≤ frames (refreshes nows s).bus ∧
      frames (refreshes nows s).bus ≤ frames s.bus + nows.length := by
  induction nows with
  | nil => intro s; simp [refreshes]
  | cons now rest ih =>
    intro s
    have h1 := ih (on_refresh now s)
    simp only [refreshes, List.length_cons]
    rcases on_refresh_icons now s with h | h <;> omega

/-- As long as the frames sent do not outnumber the decay counter, a run of `on_refresh`
calls leaves the icon mask as it was. -/
theorem refreshes_keep (nows : List Bool) :
    ∀ s : State, frames (refreshes nows s).bus ≤ frames s.bus + s.gliph_update_cnt →
      (refreshes nows s).picBits = s.picBits := by
  induction nows with
  | nil => intro s _; rfl
  | cons now rest ih =>
    intro s hle
    simp only [refreshes] at hle ⊢
    have hm := (refreshes_frames_mono rest (on_refresh now s)).1
    rcases on_refresh_icons now s with h | h
    · rw [ih (on_refresh now s) (by omega), h.1]
    · have hk : s.gliph_update_cnt ≠ 0 := by omega
      rw [ih (on_refresh now s) (by omega), h.2.2, if_pos hk]

/-- Once icon mask and decay counter are both 0 they stay 0 under `on_refresh`. -/
theorem refreshes_zero (nows : List Bool) :
    ∀ s : State, s.picBits = 0 → s.gliph_update_cnt = 0 →
      (refreshes nows s).picBits = 0 ∧ (refreshes nows s).gliph_update_cnt = 0 := by
  induction nows with
  | nil => intro s h1 h2; exact ⟨h1, h2⟩
  | cons now rest ih =>
    intro s h1 h2
    simp only [refreshes]
    apply ih
    · rcases on_refresh_icons now s with h | h
      · rw [h.1, h1]
      · rw [h.2.2]; split <;> simp [h1]
    · rcases on_refresh_icons now s with h | h <;> omega

/-- Once the frames sent outnumber the decay counter, the icon mask is 0. -/
theorem refreshes_expire (nows : List Bool) :
    ∀ s : State, frames s.bus + s.gliph_update_cnt < frames (refreshes nows s).bus →
      (refreshes nows s).picBits = 0 := by
  induction nows with
  | nil => intro s h; simp only [refreshes] at h; omega
  | cons now rest ih =>
    intro s hlt
    simp only [refreshes] at hlt ⊢
    rcases on_refresh_icons now s with h | h
    · exact ih (on_refresh now s) (by omega)
    · by_cases hk : s.gliph_update_cnt = 0
      · apply (refreshes_zero rest (on_refresh now s) ?_ ?_).1
        · rw [h.2.2]; simp [hk]
        · omega
      · exact ih (on_refresh now s) (by omega)

/-- With at least one column the fan overlay cell `cols * 4` is a character cell, so the
two flag bytes a frame ends with are the masked icon and LED masks. -/
theorem send_pic_flag_bytes (s : State) (h : Present s) (hc : 0 < s.chars_per_line) :
    (send_pic s).framebuffer (s.fbsize - 2) = s.picBits &&& PIC_MASK ∧
    (send_pic s).framebuffer (s.fbsize - 1) = s.ledBits &&& LED_MASK := by
  obtain ⟨_, h10, _, _, hfb⟩ := h
  have hmul : s.chars_per_line * 10 ≤ s.chars_per_line * s.text_lines :=
    Nat.mul_le_mul_left _ h10
  have h1 : s.fbsize - 2 ≠ s.chars_per_line * 4 := by omega
  have h2 : s.fbsize - 1 ≠ s.chars_per_line * 4 := by omega
  have h3 : s.fbsize - 2 ≠ s.fbsize - 1 := by omega
  unfold send_pic
  simp only [cs_set, spi_write, wait_us]
  split <;> split <;> simp [store, h1, h2, h3]

theorem frame_ne_nil (mem : Nat → Nat) (n : Nat) : frame mem n ≠ [] := by
  simp [frame]

theorem detect_panel_fbsize_ge_two (r c : Nat) (s : State) (h0 : s.panel_present = 0) :
    (detect_panel r c s).panel_present ≠ 0 → 2 ≤ (detect_panel r c s).fbsize := by
  unfold detect_panel
  simp only [cs_set, spi_write]
  split
  · intro h
    exact absurd h0 h
  · rename_i h
    intro _
    simp only
    have h1 : c % 65536 % 256 * (r % 65536) ≤ 255 * 20 :=
      Nat.mul_le_mul (by omega) (by omega)
    omega

theorem detect_panel_accepts (r c : Nat) (s : State) (hr : 10 ≤ r ∧ r ≤ 20) (hc : c < 256) :
    detect_panel r c s =
      { s with
        bus := s.bus ++ [BusEvent.cs 0, BusEvent.spi GET_LCD_ROW, BusEvent.spi GET_SPI_DATA,
          BusEvent.cs 1, BusEvent.cs 0, BusEvent.spi GET_LCD_COL, BusEvent.spi GET_SPI_DATA,
          BusEvent.cs 1]
        text_lines := r
        chars_per_line := c
        fbsize := c * r + 2
        panel_present := 1 } := by
  have h1 : r % 65536 = r := Nat.mod_eq_of_lt (by omega)
  have h2 : c % 65536 % 256 = c := by omega
  have h3 : c * r ≤ 255 * 20 := Nat.mul_le_mul (by omega) (by omega)
  have h4 : (c * r + 2) % 65536 = c * r + 2 := Nat.mod_eq_of_lt (by omega)
  unfold detect_panel
  simp only [cs_set, spi_write, h1, h2, h4]
  rw [if_neg (by omega)]
  simp [List.append_assoc]

theorem detect_panel_rejects (r c : Nat) (s : State) (hr : r < 10 ∨ 20 < r) (hb : r < 65536) :
    detect_panel r c s =
      { s with
        bus := s.bus ++ [BusEvent.cs 0, BusEvent.spi GET_LCD_ROW, BusEvent.spi GET_SPI_DATA,
          BusEvent.cs 1]
        text_lines := 0 } := by
  have h1 : r % 65536 = r := Nat.mod_eq_of_lt hb
  unfold detect_panel
  simp only [cs_set, spi_write, h1]
  rw [if_pos (by omega)]
  simp [List.append_assoc]

/-- C1. Discovery: for a rows response `r` in `[10, 20]` and a columns response byte `c`,
`detect_panel` makes the driver Present with `text_lines = r`, `chars_per_line = c` and
`fbsize = c * r + 2`; for a rows response byte `r < 10` or `r > 20` the presence flag keeps
its value (so an Absent driver stays Absent), `text_lines` becomes 0, and the only bus
traffic is the rows query: no GET_LCD_COL (0xE1) command is put on the bus. -/
theorem C1_detect_panel (r c : Nat) (s : State) (hr : r < 256) (hc : c < 256) :
    (10 ≤ r ∧ r ≤ 20 →
      (detect_panel r c s).panel_present = 1 ∧ (detect_panel r c s).text_lines = r ∧
      (detect_panel r c s).chars_per_line = c ∧ (detect_panel r c s).fbsize = c * r + 2 ∧
      Present (detect_panel r c s)) ∧
    (r < 10 ∨ 20 < r →
      (detect_panel r c s).panel_present = s.panel_present ∧
      (s.panel_present = 0 → (detect_panel r c s).panel_present = 0) ∧
      (detect_panel r c s).text_lines = 0 ∧
      (detect_panel r c s).bus = s.bus ++ [BusEvent.cs 0, BusEvent.spi GET_LCD_ROW,
        BusEvent.spi GET_SPI_DATA, BusEvent.cs 1] ∧
      ∀ added, (detect_panel r c s).bus = s.bus ++ added → BusEvent.spi GET_LCD_COL ∉ added) := by
  constructor
  · intro h
    rw [detect_panel_accepts r c s h hc]
    refine ⟨rfl, rfl, rfl, rfl, ?_⟩
    exact ⟨rfl, h.1, h.2, hc, rfl⟩
  · intro h
    rw [detect_panel_rejects r c s h (by omega)]
    refine ⟨rfl, fun h0 => h0, rfl, rfl, ?_⟩
    intro added hadd
    have := List.append_cancel_left hadd
    subst this
    decide

/-- Witness of C1: rows response 10 and columns response 20 on a fresh driver. -/
theorem C1_detect_panel_witness :
    (10 : Nat) < 256 ∧ (20 : Nat) < 256 ∧ (detect_panel 10 20 State.zero).fbsize = 202 :=
  ⟨by decide, by decide,
    ((C1_detect_panel 10 20 State.zero (by decide) (by decide)).1 ⟨by decide, by decide⟩).2.2.2.1⟩

/-- C2 (failing input). Geometry 20 rows by 20 columns, cursor (0, 13), the one-character
string "A": the range `13*20 + 0 + 1 = 261` fits the 400 cells, yet after
`setCursor(0, 13)` and `write("A", 1)` cell 260 still holds the blank, and the character
has been stored in cell 4 (= 260 mod 256), which lies outside the addressed range. -/
theorem C2_write_wraps_at_256 :
    Present grid20x20 ∧
    13 * grid20x20.chars_per_line + 0 + 1 ≤ grid20x20.text_lines * grid20x20.chars_per_line ∧
    (write (fun _ => 65) 1 (setCursor 0 13 grid20x20)).framebuffer 260 = 32 ∧
    grid20x20.framebuffer 4 = 32 ∧
    (write (fun _ => 65) 1 (setCursor 0 13 grid20x20)).framebuffer 4 = 65 := by
  refine ⟨by decide, by decide, by decide, by decide, by decide⟩

/-- C3. `clear()` on a Present driver, whatever the state before: every one of the
`rows * cols` character cells holds the blank (0x20), the two flag bytes at `fbsize - 2`
and `fbsize - 1` hold 0, the cursor is (0, 0), the icon mask and the icon decay counter
are 0, and the bus trace is unchanged. -/
theorem C3_clear (s : State) (h : Present s) :
    (∀ i, i < s.text_lines * s.chars_per_line → (clear s).framebuffer i = 32) ∧
    (clear s).framebuffer (s.fbsize - 2) = 0 ∧ (clear s).framebuffer (s.fbsize - 1) = 0 ∧
    (clear s).tx = 0 ∧ (clear s).ty = 0 ∧ (clear s).picBits = 0 ∧
    (clear s).gliph_update_cnt = 0 ∧ (clear s).bus = s.bus ∧
    (clear s).fbsize = s.fbsize ∧ s.fbsize = s.text_lines * s.chars_per_line + 2 := by
  obtain ⟨hp, _, _, _, hfb⟩ := h
  have hne : ¬ s.panel_present = 0 := by omega
  have hfb2 : s.fbsize = s.text_lines * s.chars_per_line + 2 := by
    rw [hfb, Nat.mul_comm]
  unfold clear
  rw [if_neg hne]
  refine ⟨?_, ?_, ?_, rfl, rfl, rfl, rfl, rfl, rfl, hfb2⟩
  · intro i hi
    have h1 : i ≠ s.fbsize - 2 := by omega
    have h2 : i ≠ s.fbsize - 1 := by omega
    have h3 : i < s.fbsize - 2 := by omega
    simp [store, memset, h1, h2, h3]
  · simp [store]
  · have h1 : s.fbsize - 1 ≠ s.fbsize - 2 := by omega
    simp [store, h1]

/-- Witness of C3: `clear()` on the driver detected with 10 rows and 20 columns. -/
theorem C3_clear_witness :
    Present (detect_panel 10 20 State.zero) ∧
    (clear (detect_panel 10 20 State.zero)).framebuffer 200 = 0 :=
  ⟨by decide, (C3_clear (detect_panel 10 20 State.zero) (by decide)).2.1⟩

/-- C4. Refresh cadence on a Present driver.  With the refresh counter at 0, the first
`on_refresh(false)` leaves the bus untouched and the second appends exactly one frame
(chip select, opcode 0x03, the `fbsize` buffer bytes, settle, deselect); `on_refresh(true)`
appends one frame in that very call whatever the counter is; and any call that changes the
bus leaves the refresh counter at 0. -/
theorem C4_refresh_cadence (s : State) (hp : s.panel_present ≠ 0) :
    (s.refresh_counts = 0 →
      (on_refresh false s).bus = s.bus ∧
      (on_refresh false (on_refresh false s)).bus =
        s.bus ++ frame (on_refresh false (on_refresh false s)).framebuffer s.fbsize ∧
      frames (on_refresh false s).bus = frames s.bus ∧
      frames (on_refresh false (on_refresh false s)).bus = frames s.bus + 1 ∧
      (on_refresh false (on_refresh false s)).refresh_counts = 0) ∧
    ((on_refresh true s).bus = s.bus ++ frame (on_refresh true s).framebuffer s.fbsize ∧
      frames (on_refresh true s).bus = frames s.bus + 1 ∧
      (on_refresh true s).refresh_counts = 0) ∧
    (∀ now, (on_refresh now s).bus ≠ s.bus → (on_refresh now s).refresh_counts = 0) := by
  have forced := on_refresh_send_bus true s hp (Or.inl rfl)
  refine ⟨?_, ⟨forced.1, ?_, forced.2⟩, ?_⟩
  · intro h0
    have first : on_refresh false s = { s with refresh_counts := 1 } := by
      rw [on_refresh_skip false s hp (by simp [h0]), h0]
    have second := on_refresh_send_bus false { s with refresh_counts := 1 } hp (Or.inr rfl)
    rw [← first] at second
    have hbus : (on_refresh false s).bus = s.bus := by rw [first]
    have hsz : (on_refresh false s).fbsize = s.fbsize := by rw [first]
    rw [hbus, hsz] at second
    refine ⟨hbus, second.1, by rw [hbus], ?_, second.2⟩
    rw [second.1, frames_append, frames_frame]
  · rw [forced.1, frames_append, frames_frame]
  · intro now hbus
    by_cases hc : now = true ∨ (s.refresh_counts + 1) % 256 = 2
    · exact (on_refresh_send_bus now s hp hc).2
    · rw [on_refresh_skip now s hp hc] at hbus
      exact absurd rfl hbus

/-- Witness of C4: the driver detected with 10 rows and 20 columns. -/
theorem C4_refresh_cadence_witness :
    (detect_panel 10 20 State.zero).panel_present ≠ 0 ∧
    (on_refresh true (detect_panel 10 20 State.zero)).refresh_counts = 0 :=
  ⟨by decide, (C4_refresh_cadence (detect_panel 10 20 State.zero) (by decide)).2.1.2.2⟩

/-- Wire layout of a transmit on a geometry with at least one column: the call that
changes the bus appends one frame whose bytes are the buffer as left in memory, and whose
last two bytes are the masked icon and LED masks. -/
theorem on_refresh_icon_byte (now : Bool) (s : State) (h : Present s)
    (hc : 0 < s.chars_per_line) (hbus : (on_refresh now s).bus ≠ s.bus) :
    (on_refresh now s).framebuffer (s.fbsize - 2) = s.picBits &&& PIC_MASK ∧
    (on_refresh now s).framebuffer (s.fbsize - 1) = s.ledBits &&& LED_MASK ∧
    (on_refresh now s).bus = s.bus ++ frame (on_refresh now s).framebuffer s.fbsize := by
  have hp : s.panel_present ≠ 0 := by
    have := h.1
    omega
  by_cases hs : now = true ∨ (s.refresh_counts + 1) % 256 = 2
  · refine ⟨?_, ?_, (on_refresh_send_bus now s hp hs).1⟩
    · rw [on_refresh_send now s hp hs]
      exact (send_pic_flag_bytes { s with refresh_counts := (s.refresh_counts + 1) % 256 } h hc).1
    · rw [on_refresh_send now s hp hs]
      exact (send_pic_flag_bytes { s with refresh_counts := (s.refresh_counts + 1) % 256 } h hc).2
  · rw [on_refresh_skip now s hp hs] at hbus
    exact absurd rfl hbus

theorem refreshes_present (nows : List Bool) (s : State) (h : Present s) :
    Present (refreshes nows s) := by
  obtain ⟨h1, h2, h3, h4, h5⟩ := h
  obtain ⟨g1, g2, g3, g4, _⟩ := refreshes_geometry nows s
  unfold Present
  rw [g1, g2, g3, g4]
  exact ⟨h1, h2, h3, h4, h5⟩

/-- C5 (counterexample). On the cleared 10 x 20 driver (decay counter 0) the logo request
sets the logo bit, and the very first transmit, forced or reached by two plain
`on_refresh` calls, leaves the icon mask without it; the second transmit then carries
icon byte 0. -/
theorem C5_logo_cleared_by_first_transmit :
    Present grid10x20 ∧ logo_request.picBits &&& 1 = 1 ∧
    (on_refresh true logo_request).picBits &&& 1 = 0 ∧
    (refreshes [false, false] logo_request).picBits &&& 1 = 0 ∧
    (on_refresh true (on_refresh true logo_request)).framebuffer
      (logo_request.fbsize - 2) = 0 := by
  refine ⟨by decide, by decide, by decide, by decide, by decide⟩

/-- While the frames sent do not outnumber the decay counter, the counter goes down by one
per frame. -/
theorem refreshes_counter (nows : List Bool) :
    ∀ s : State, frames (refreshes nows s).bus ≤ frames s.bus + s.gliph_update_cnt →
      (refreshes nows s).gliph_update_cnt + frames (refreshes nows s).bus
        = s.gliph_update_cnt + frames s.bus := by
  induction nows with
  | nil => intro s _; rfl
  | cons now rest ih =>
    intro s hle
    simp only [refreshes] at hle ⊢
    have hm := (refreshes_frames_mono rest (on_refresh now s)).1
    rcases on_refresh_icons now s with h | h
    · rw [ih (on_refresh now s) (by omega)]
      omega
    · rw [ih (on_refresh now s) (by omega)]
      omega

/-- The transmit that finds the decay counter at 0 zeroes the whole icon mask. -/
theorem on_refresh_zeroes_mask (now : Bool) (s : State) (h0 : s.gliph_update_cnt = 0)
    (hbus : (on_refresh now s).bus ≠ s.bus) : (on_refresh now s).picBits = 0 := by
  by_cases hp : s.panel_present = 0
  · unfold on_refresh at hbus
    rw [if_pos hp] at hbus
    exact absurd rfl hbus
  · by_cases hs : now = true ∨ (s.refresh_counts + 1) % 256 = 2
    · rw [on_refresh_send now s hp hs]
      simp only [send_pic_picBits]
      rw [if_neg (by simp [h0])]
    · rw [on_refresh_skip now s hp hs] at hbus
      exact absurd rfl hbus

/-- C5 (amended). On a Present driver in any state, `bltGlyph` with `w = 80` makes the
icon mask 0x01 and leaves the decay counter and every other field as they are.  With `k`
the value of the decay counter at the request: while at most `k` transmits have been made
since, the logo bit is still set after every `on_refresh` call (forced or not) and the
counter has gone down by one per transmit; in particular the bit is set after each of the
next 20 calls when `k ≥ 20`.  The transmit that finds the counter at 0 zeroes the whole
icon mask, so once more than `k` transmits have been made the mask is 0, logo bit included.
On a geometry with at least one column every transmit made while at most `k` have preceded
it carries the logo bit in the icon byte of its frame. -/
theorem C5_logo_kept_while_counter_lasts (x y h : Int) (s : State) (hp : Present s) :
    bltGlyph x y 80 h s = { s with picBits := 1 } ∧
    (bltGlyph x y 80 h s).gliph_update_cnt = s.gliph_update_cnt ∧
    (bltGlyph x y 80 h s).picBits = 1 ∧ (bltGlyph x y 80 h s).picBits &&& 1 = 1 ∧
    (∀ nows, frames (refreshes nows (bltGlyph x y 80 h s)).bus
        ≤ frames s.bus + s.gliph_update_cnt →
      (refreshes nows (bltGlyph x y 80 h s)).picBits &&& 1 = 1 ∧
      (refreshes nows (bltGlyph x y 80 h s)).gliph_update_cnt +
        frames (refreshes nows (bltGlyph x y 80 h s)).bus
          = s.gliph_update_cnt + frames s.bus) ∧
    (20 ≤ s.gliph_update_cnt → ∀ nows, nows.length ≤ 20 →
      (refreshes nows (bltGlyph x y 80 h s)).picBits &&& 1 = 1) ∧
    (∀ nows now, (refreshes nows (bltGlyph x y 80 h s)).gliph_update_cnt = 0 →
      (on_refresh now (refreshes nows (bltGlyph x y 80 h s))).bus
        ≠ (refreshes nows (bltGlyph x y 80 h s)).bus →
      (on_refresh now (refreshes nows (bltGlyph x y 80 h s))).picBits = 0) ∧
    (∀ nows, frames s.bus + s.gliph_update_cnt
        < frames (refreshes nows (bltGlyph x y 80 h s)).bus →
      (refreshes nows (bltGlyph x y 80 h s)).picBits = 0) ∧
    (0 < s.chars_per_line → ∀ nows now,
      frames (refreshes nows (bltGlyph x y 80 h s)).bus ≤ frames s.bus + s.gliph_update_cnt →
      (on_refresh now (refreshes nows (bltGlyph x y 80 h s))).bus
        ≠ (refreshes nows (bltGlyph x y 80 h s)).bus →
      (on_refresh now (refreshes nows (bltGlyph x y 80 h s))).framebuffer (s.fbsize - 2)
          &&& 1 = 1 ∧
      (on_refresh now (refreshes nows (bltGlyph x y 80 h s))).bus =
        (refreshes nows (bltGlyph x y 80 h s)).bus ++
          frame (on_refresh now (refreshes nows (bltGlyph x y 80 h s))).framebuffer
            s.fbsize) := by
  have hb : bltGlyph x y 80 h s = { s with picBits := 1 } := by
    unfold bltGlyph
    rw [if_pos rfl]
  rw [hb]
  have keep : ∀ nows, frames (refreshes nows { s with picBits := 1 }).bus
      ≤ frames s.bus + s.gliph_update_cnt →
      (refreshes nows { s with picBits := 1 }).picBits = 1 := fun nows hle =>
    refreshes_keep nows { s with picBits := 1 } hle
  have one : (1 : Nat) &&& 1 = 1 := by decide
  have one_mask : (1 : Nat) &&& PIC_MASK &&& 1 = 1 := by decide
  refine ⟨rfl, rfl, rfl, one, ?_, ?_, ?_, ?_, ?_⟩
  · intro nows hle
    refine ⟨?_, refreshes_counter nows { s with picBits := 1 } hle⟩
    rw [keep nows hle]
    exact one
  · intro hk nows hlen
    have hm := (refreshes_frames_mono nows { s with picBits := 1 }).2
    have hle : frames (refreshes nows { s with picBits := 1 }).bus
        ≤ frames s.bus + s.gliph_update_cnt := by
      have e : frames ({ s with picBits := 1 } : State).bus = frames s.bus := rfl
      omega
    rw [keep nows hle]
    exact one
  · intro nows now h0 hbus
    exact on_refresh_zeroes_mask now _ h0 hbus
  · intro nows hlt
    exact refreshes_expire nows { s with picBits := 1 } hlt
  · intro hc nows now hle hbus
    have hp1 : Present { s with picBits := 1 } := hp
    have hpr := refreshes_present nows { s with picBits := 1 } hp1
    obtain ⟨_, g2, g3, _, _⟩ := refreshes_geometry nows { s with picBits := 1 }
    have hc2 : 0 < (refreshes nows { s with picBits := 1 }).chars_per_line := by
      rw [g3]; exact hc
    have hi := on_refresh_icon_byte now _ hpr hc2 hbus
    rw [g2, keep nows hle] at hi
    exact ⟨by rw [hi.1, one_mask], hi.2.2⟩

/-- Witness of C5 (amended): the logo requested while the decay counter stands at 20 leaves
it at 20 and outlives 20 forced refreshes; requested on the cleared driver (counter 0) it is
zeroed, with the whole mask, by the first transmit. -/
theorem C5_logo_kept_witness :
    Present icon_request ∧ 20 ≤ icon_request.gliph_update_cnt ∧
    (bltGlyph 0 0 80 0 icon_request).gliph_update_cnt = 20 ∧
    (refreshes (List.replicate 20 true) (bltGlyph 0 0 80 0 icon_request)).picBits &&& 1 = 1 ∧
    Present grid10x20 ∧
    (on_refresh true (refreshes [] (bltGlyph 0 0 80 0 grid10x20))).picBits = 0 :=
  ⟨by decide, by decide,
    (C5_logo_kept_while_counter_lasts 0 0 0 icon_request (by decide)).2.1,
    (C5_logo_kept_while_counter_lasts 0 0 0 icon_request (by decide)).2.2.2.2.2.1 (by decide)
      (List.replicate 20 true) (by decide),
    by decide,
    (C5_logo_kept_while_counter_lasts 0 0 0 grid10x20 (by decide)).2.2.2.2.2.2.1
      [] true (by decide) (by decide)⟩

theorem bltGlyph_region (x y w h : Int) (b : Nat) (s : State) (hw : w ≠ 80)
    (hx : (x, b) ∈ icon_regions) :
    bltGlyph x y w h s =
      { s with gliph_update_cnt := 20, picBits := (s.picBits ||| b) % 256 } ∧
    b ∈ [2, 4, 8, 16, 32] := by
  unfold bltGlyph
  rw [if_neg hw]
  simp only [icon_regions, List.mem_cons, Prod.mk.injEq, List.mem_singleton,
    List.not_mem_nil, or_false] at hx
  rcases hx with ⟨h1, h2⟩ | ⟨h1, h2⟩ | ⟨h1, h2⟩ | ⟨h1, h2⟩ | ⟨h1, h2⟩ <;>
    subst h1 <;> subst h2 <;> simp

/-- C6 (counterexample). Logo bit set beforehand, then the hotend-1 icon (`x = 0`) is
requested on the 10 x 20 driver: after 20 further ticks, all forced or all plain, the
regional bit 0x02 is still set in the icon mask; and once it is clear, after the 21st
transmit, the logo bit is clear as well. -/
theorem C6_region_bit_set_after_20_ticks :
    Present grid10x20 ∧ logo_request.picBits &&& 1 = 1 ∧ icon_request.picBits &&& 2 = 2 ∧
    (refreshes (List.replicate 20 true) icon_request).picBits &&& 2 = 2 ∧
    (refreshes (List.replicate 20 false) icon_request).picBits &&& 2 = 2 ∧
    (refreshes (List.replicate 21 true) icon_request).picBits &&& 2 = 0 ∧
    (refreshes (List.replicate 21 true) icon_request).picBits &&& 1 = 0 := by
  refine ⟨by decide, by decide, by decide, by decide, by decide, by decide, by decide⟩

/-- C6 (amended). On a Present driver, `bltGlyph` with `w ≠ 80` and `x` one of 0, 27, 55,
83, 111 sets the matching bit (0x02, 0x04, 0x08, 0x10, 0x20) of the icon mask, keeps a logo
bit that was set, and arms the decay counter with 20.  With no further `bltGlyph` or
`clear()`, the icon mask is unchanged, regional bit and logo bit both still set, after
every run of at most 20 ticks, and more generally while at most 20 frames have been sent;
as soon as 21 frames have been sent the whole icon mask is 0, regional bit and logo bit
alike. -/
theorem C6_regional_icon_lifetime (x y w h : Int) (b : Nat) (s : State) (hp : Present s)
    (hw : w ≠ 80) (hx : (x, b) ∈ icon_regions) :
    (bltGlyph x y w h s).picBits &&& b = b ∧
    (bltGlyph x y w h s).gliph_update_cnt = 20 ∧
    (s.picBits &&& 1 = 1 → (bltGlyph x y w h s).picBits &&& 1 = 1) ∧
    (∀ nows, nows.length ≤ 20 →
      (refreshes nows (bltGlyph x y w h s)).picBits &&& b = b ∧
      (s.picBits &&& 1 = 1 → (refreshes nows (bltGlyph x y w h s)).picBits &&& 1 = 1)) ∧
    (∀ nows, frames (refreshes nows (bltGlyph x y w h s)).bus ≤ frames s.bus + 20 →
      (refreshes nows (bltGlyph x y w h s)).picBits = (bltGlyph x y w h s).picBits) ∧
    (∀ nows, frames s.bus + 20 < frames (refreshes nows (bltGlyph x y w h s)).bus →
      (refreshes nows (bltGlyph x y w h s)).picBits = 0) := by
  obtain ⟨hb, hmem⟩ := bltGlyph_region x y w h b s hw hx
  have hbits := region_bit_set s.picBits b hmem
  have hbus : (bltGlyph x y w h s).bus = s.bus := by rw [hb]
  have hcnt : (bltGlyph x y w h s).gliph_update_cnt = 20 := by rw [hb]
  have hpic : (bltGlyph x y w h s).picBits = (s.picBits ||| b) % 256 := by rw [hb]
  have keep : ∀ nows, frames (refreshes nows (bltGlyph x y w h s)).bus ≤ frames s.bus + 20 →
      (refreshes nows (bltGlyph x y w h s)).picBits = (bltGlyph x y w h s).picBits := by
    intro nows hle
    apply refreshes_keep
    rw [hbus, hcnt]
    exact hle
  refine ⟨?_, hcnt, ?_, ?_, keep, ?_⟩
  · rw [hpic]; exact hbits.1
  · rw [hpic]; exact hbits.2
  · intro nows hlen
    have hm := (refreshes_frames_mono nows (bltGlyph x y w h s)).2
    rw [hbus] at hm
    rw [keep nows (by omega), hpic]
    exact hbits
  · intro nows hlt
    apply refreshes_expire
    rw [hbus, hcnt]
    exact hlt

/-- Witness of C6 (amended): the hotend-1 icon requested after the logo; both bits are
still set after 20 forced refreshes. -/
theorem C6_regional_icon_lifetime_witness :
    Present logo_request ∧ (10 : Int) ≠ 80 ∧ ((0 : Int), 2) ∈ icon_regions ∧
    (refreshes (List.replicate 20 true) (bltGlyph 0 0 10 10 logo_request)).picBits &&& 2 = 2 :=
  ⟨by decide, by decide, by decide,
    ((C6_regional_icon_lifetime 0 0 10 10 2 logo_request (by decide) (by decide)
      (by decide)).2.2.2.1 (List.replicate 20 true) (by decide)).1⟩

theorem setLed_on (ids : LedIds) (hd : ids.distinct) (led : Int) (bit : Nat) (s : State)
    (hl : (led, bit) ∈ led_bits ids) :
    setLed ids led true s = { s with ledBits := (s.ledBits ||| bit) % 256 } ∧
    setLed ids led false s = { s with ledBits := clear_bits s.ledBits bit } ∧
    bit ∈ [1, 2, 4, 8] := by
  obtain ⟨d1, d2, d3, d4, d5, d6⟩ := hd
  unfold setLed
  simp only [led_bits, List.mem_cons, Prod.mk.injEq, List.mem_singleton,
    List.not_mem_nil, or_false] at hl
  rcases hl with ⟨h1, h2⟩ | ⟨h1, h2⟩ | ⟨h1, h2⟩ | ⟨h1, h2⟩ <;>
    subst h1 <;> subst h2 <;>
    simp [d1, d2, d3, d4, d5, d6, Ne.symm d1, Ne.symm d2, Ne.symm d3, Ne.symm d4,
      Ne.symm d5, Ne.symm d6]

/-- C7. LED mask round trip.  For each of the four named LEDs (LED_HOTEND_ON: bit 1,
LED_BED_ON: bit 2, LED_FAN_ON: bit 4, LED_HOT: bit 8) and every prior 8-bit LED mask `m`:
`setLed(id, true)` yields `m` with that bit set and `setLed(id, false)` yields `m` with that
bit cleared, every other bit of the mask as in `m`, no other field of the driver changed,
and repeating the same call changes nothing. -/
theorem C7_setLed (ids : LedIds) (hd : ids.distinct) (led : Int) (bit m : Nat) (s : State)
    (hl : (led, bit) ∈ led_bits ids) (hs : s.ledBits = m) (hm : m < 256) :
    setLed ids led true s = { s with ledBits := m ||| bit } ∧
    setLed ids led false s = { s with ledBits := m &&& (255 - bit) } ∧
    (∀ j, (setLed ids led true s).ledBits.testBit j = (m.testBit j || bit.testBit j)) ∧
    (∀ j, (setLed ids led false s).ledBits.testBit j = (m.testBit j && !bit.testBit j)) ∧
    setLed ids led true (setLed ids led true s) = setLed ids led true s ∧
    setLed ids led false (setLed ids led false s) = setLed ids led false s := by
  obtain ⟨hon, hoff, hmem⟩ := setLed_on ids hd led bit s hl
  obtain ⟨b1, b2, b3, b4, b5, b6⟩ := led_bits_byte m hm bit hmem
  have eon : setLed ids led true s = { s with ledBits := m ||| bit } := by
    rw [hon, hs, b1]
  have eoff : setLed ids led false s = { s with ledBits := m &&& (255 - bit) } := by
    rw [hoff, hs, b4]
  refine ⟨eon, eoff, ?_, ?_, ?_, ?_⟩
  · intro j
    rw [eon]
    exact Nat.testBit_or m bit j
  · intro j
    rw [eoff]
    show (m &&& (255 - bit)).testBit j = (m.testBit j && !bit.testBit j)
    rw [Nat.testBit_and]
    by_cases hj : j < 8
    · rw [led_bit_complement bit hmem j hj]
    · rw [byte_testBit_high m j hm (by omega)]
      rfl
  · rw [(setLed_on ids hd led bit (setLed ids led true s) hl).1, eon]
    show ({ s with ledBits := (m ||| bit ||| bit) % 256 } : State) = _
    rw [b5]
  · rw [(setLed_on ids hd led bit (setLed ids led false s) hl).2.1, hoff, hs]
    show ({ s with ledBits := clear_bits (clear_bits m bit) bit } : State) = _
    rw [b6, b4]

/-- Witness of C7: LED_BED_ON on a mask with the fan and hot bits set, for the macro values
1, 2, 3, 4. -/
theorem C7_setLed_witness :
    (LedIds.mk 1 2 3 4).distinct ∧ ((2 : Int), 2) ∈ led_bits (LedIds.mk 1 2 3 4) ∧
    ({ State.zero with ledBits := 12 } : State).ledBits = 12 ∧ (12 : Nat) < 256 ∧
    (setLed (LedIds.mk 1 2 3 4) 2 true { State.zero with ledBits := 12 }).ledBits.testBit 1
      = (Nat.testBit 12 1 || Nat.testBit 2 1) :=
  ⟨by decide, by decide, rfl, by decide,
    (C7_setLed (LedIds.mk 1 2 3 4) (by decide) 2 2 12 { State.zero with ledBits := 12 }
      (by decide) rfl (by decide)).2.2.1 1⟩

/-- C8. Absent gate, bus side.  With `panel_present = 0`, `readButtons()` and
`readEncoderDelta()` return 0, and none of `write`, `setCursor`, `home`, `setLed`,
`setContrast`, `clear`, `init`, `on_refresh`, `readButtons`, `readEncoderDelta` adds
anything to the bus trace (no SPI byte, no chip-select change, no delay). -/
theorem C8_absent_no_bus (s : State) (ha : s.panel_present = 0) (ids : LedIds)
    (line : Nat → Nat) (len led : Int) (col row c resp : Nat) (onoff now : Bool) :
    (readButtons resp s).2 = 0 ∧ (readEncoderDelta resp s).2 = 0 ∧
    (write line len s).bus = s.bus ∧ (setCursor col row s).bus = s.bus ∧
    (home s).bus = s.bus ∧ (setLed ids led onoff s).bus = s.bus ∧
    (setContrast c s).bus = s.bus ∧ (clear s).bus = s.bus ∧ (init s).bus = s.bus ∧
    (on_refresh now s).bus = s.bus ∧ (readButtons resp s).1.bus = s.bus ∧
    (readEncoderDelta resp s).1.bus = s.bus := by
  refine ⟨?_, ?_, ?_, rfl, rfl, ?_, ?_, ?_, ?_, ?_, ?_, ?_⟩
  · unfold readButtons; rw [if_pos ha]
  · unfold readEncoderDelta; rw [if_pos ha]
  · unfold write; rw [if_pos ha]
  · unfold setLed
    split <;> split <;> try rfl
    all_goals split <;> try rfl
    all_goals split <;> try rfl
    all_goals split <;> rfl
  · unfold setContrast
    simp only
    rw [if_pos ha]
  · unfold clear; rw [if_pos ha]
  · unfold init; rw [if_pos ha]
  · unfold on_refresh; rw [if_pos ha]
  · unfold readButtons; rw [if_pos ha]
  · unfold readEncoderDelta; rw [if_pos ha]

/-- Witness of C8: the driver whose adapter answered 0 rows stays Absent and silent. -/
theorem C8_absent_no_bus_witness :
    (detect_panel 0 0 State.zero).panel_present = 0 ∧
    (readButtons 255 (detect_panel 0 0 State.zero)).2 = 0 :=
  ⟨by decide, (C8_absent_no_bus (detect_panel 0 0 State.zero) (by decide) (LedIds.mk 1 2 3 4)
    READY 5 1 0 0 0 255 true true).1⟩

/-- The buffer `send_pic` leaves behind: the two flag bytes stored, then the fan overlay
when cell 20 holds 'X' and a fan is present. -/
theorem send_pic_framebuffer (s : State) :
    (send_pic s).framebuffer =
      if store (store s.framebuffer (s.fbsize - 2) (s.picBits &&& PIC_MASK))
          (s.fbsize - 1) (s.ledBits &&& LED_MASK) 20 = 88 ∧ s.has_fan = true then
        store (store (store s.framebuffer (s.fbsize - 2) (s.picBits &&& PIC_MASK))
          (s.fbsize - 1) (s.ledBits &&& LED_MASK)) (s.chars_per_line * 4) (s.fan_percent % 256)
      else
        store (store s.framebuffer (s.fbsize - 2) (s.picBits &&& PIC_MASK))
          (s.fbsize - 1) (s.ledBits &&& LED_MASK) := by
  unfold send_pic
  simp only [cs_set, spi_write, wait_us]
  split <;> split <;> simp_all

/-- C9 (failing input). Rows response 10, columns response 0: the driver is Present with
`fbsize = 2`.  With icon mask 0x20, a fan present at 50 percent and an 'X' in the byte 20
places after the buffer start, a forced refresh streams opcode 0x03 and the two bytes 50, 0:
the penultimate byte is the fan percentage, not `0x20 & 0x3F`. -/
theorem C9_icon_byte_overwritten_without_columns :
    Present zero_columns ∧ zero_columns.fbsize = 2 ∧ zero_columns.picBits &&& PIC_MASK = 32 ∧
    (on_refresh true zero_columns).bus = zero_columns.bus ++
      [BusEvent.cs 0, BusEvent.spi LCD_WRITE, BusEvent.spi 50, BusEvent.spi 0,
        BusEvent.wait_us 10, BusEvent.cs 1] := by
  refine ⟨by decide, by decide, by decide, by decide⟩

theorem stream_congr (f g : Nat → Nat) (n : Nat) (h : ∀ i, i < n → f i = g i) :
    stream f n = stream g n := by
  unfold stream
  apply List.map_congr_left
  intro i hi
  rw [h i (List.mem_range.mp hi)]

theorem store_apply (mem : Nat → Nat) (i v j : Nat) :
    store mem i v j = if j = i then v else mem j := rfl

theorem READY_screen_length : READY_screen.length = 202 := by
  simp only [READY_screen, List.length_append, List.length_replicate, List.length_cons,
    List.length_nil]

set_option maxRecDepth 100000 in
theorem stream_READY_screen :
    stream (fun i => if i < 5 then READY i else if i < 200 then 32 else 0) 202 =
      READY_screen.map BusEvent.spi := by
  decide

/-- C10. End-to-end scenario.  Rows response 10 and columns response 20 give a Present
driver with buffer size 202.  From any such driver whose 200 cells are blank and whose
icon mask, LED mask and decay counter are 0, `setCursor(0,0)`, `write("READY", 5)` and
`on_refresh(true)` append to the bus exactly one frame: chip select, opcode 0x03, the 202
bytes 'R','E','A','D','Y', 195 blanks, icon byte 0, LED byte 0, then settle and deselect. -/
theorem C10_ready_scenario (s0 s : State)
    (hgeo : s.panel_present = (detect_panel 10 20 s0).panel_present ∧
      s.text_lines = (detect_panel 10 20 s0).text_lines ∧
      s.chars_per_line = (detect_panel 10 20 s0).chars_per_line ∧
      s.fbsize = (detect_panel 10 20 s0).fbsize)
    (hblank : ∀ i, i < 200 → s.framebuffer i = 32)
    (hflags : s.picBits = 0 ∧ s.ledBits = 0 ∧ s.gliph_update_cnt = 0) :
    s.fbsize = 202 ∧ READY_screen.length = 202 ∧
    (on_refresh true (write READY 5 (setCursor 0 0 s))).bus =
      s.bus ++ [BusEvent.cs 0, BusEvent.spi 0x03] ++ READY_screen.map BusEvent.spi ++
        [BusEvent.wait_us 10, BusEvent.cs 1] := by
  rw [detect_panel_accepts 10 20 s0 (by decide) (by decide)] at hgeo
  obtain ⟨g1, g2, g3, g4⟩ := hgeo
  simp only at g1 g2 g3 g4
  obtain ⟨f1, f2, f3⟩ := hflags
  have hp : s.panel_present ≠ 0 := by omega
  have hw : write READY 5 (setCursor 0 0 s) =
      { s with tx := 0, ty := 0,
               framebuffer := write_loop READY 5 0 0 s.framebuffer } := by
    unfold write setCursor
    simp only
    rw [if_neg hp]
    simp
  refine ⟨g4, READY_screen_length, ?_⟩
  have hsend := (on_refresh_send_bus true (write READY 5 (setCursor 0 0 s))
    (by rw [hw]; exact hp) (Or.inl rfl)).1
  rw [hsend]
  have hfb : ∀ i, i < 202 → (on_refresh true (write READY 5 (setCursor 0 0 s))).framebuffer i =
      (fun i => if i < 5 then READY i else if i < 200 then 32 else 0) i := by
    intro i hi
    have h20 : s.framebuffer 20 = 32 := hblank 20 (by omega)
    have hfin : (on_refresh true (write READY 5 (setCursor 0 0 s))).framebuffer =
        store (store (store (store (store (store (store s.framebuffer 0 82) 1 69) 2 65) 3 68)
          4 89) 200 0) 201 0 := by
      rw [on_refresh_send true _ (by rw [hw]; exact hp) (Or.inl rfl)]
      simp only [send_pic_framebuffer]
      rw [hw]
      simp only [g4, f1, f2, write_loop, store_apply, h20]
      simp [READY]
    rw [hfin]
    simp only [store_apply]
    by_cases h5 : i < 5
    · interval_cases i <;> simp [READY]
    · by_cases h200 : i < 200
      · have := hblank i h200
        have e1 : ¬ i = 201 := by omega
        have e2 : ¬ i = 200 := by omega
        have e3 : ¬ i = 4 := by omega
        have e4 : ¬ i = 3 := by omega
        have e5 : ¬ i = 2 := by omega
        have e6 : ¬ i = 1 := by omega
        have e7 : ¬ i = 0 := by omega
        simp [h5, h200, e1, e2, e3, e4, e5, e6, e7, this]
      · have : i = 200 ∨ i = 201 := by omega
        rcases this with h | h <;> subst h <;> simp
  have hfs : (write READY 5 (setCursor 0 0 s)).fbsize = 202 := by rw [hw]; exact g4
  have hbs : (write READY 5 (setCursor 0 0 s)).bus = s.bus := by rw [hw]
  rw [hfs, hbs, stream_congr _ _ 202 hfb |> fun h => show frame _ 202 = _ from by
    unfold frame; rw [h]]
  rw [stream_READY_screen]
  simp [List.append_assoc]

/-- Witness of C10: the driver detected with 10 rows and 20 columns, after `clear()`. -/
theorem C10_ready_scenario_witness :
    (on_refresh true (write READY 5 (setCursor 0 0 grid10x20))).bus =
      grid10x20.bus ++ [BusEvent.cs 0, BusEvent.spi 0x03] ++ READY_screen.map BusEvent.spi ++
        [BusEvent.wait_us 10, BusEvent.cs 1] :=
  (C10_ready_scenario State.zero grid10x20 (by decide) (by intro i hi; interval_cases i <;> rfl)
    (by decide)).2.2

/-- C11. Encoder delta on a Present driver: for every response byte `b` the call returns
`b` when `b < 128` and `b - 256` when `b ≥ 128`, a value in `[-128, 127]`, after exactly
one READ_ENCODER exchange. -/
theorem C11_encoder_delta (b : Nat) (s : State) (hp : s.panel_present ≠ 0) (hb : b < 256) :
    (readEncoderDelta b s).2 = (if b < 128 then (b : Int) else (b : Int) - 256) ∧
    -128 ≤ (readEncoderDelta b s).2 ∧ (readEncoderDelta b s).2 ≤ 127 ∧
    (readEncoderDelta b s).1.bus = s.bus ++ [BusEvent.cs 0, BusEvent.spi READ_ENCODER,
      BusEvent.safe_delay_us 10, BusEvent.spi GET_SPI_DATA, BusEvent.safe_delay_us 10,
      BusEvent.cs 1] := by
  have hm : b % 256 = b := Nat.mod_eq_of_lt hb
  have e : readEncoderDelta b s =
      ({ s with bus := s.bus ++ [BusEvent.cs 0, BusEvent.spi READ_ENCODER,
          BusEvent.safe_delay_us 10, BusEvent.spi GET_SPI_DATA, BusEvent.safe_delay_us 10,
          BusEvent.cs 1] }, to_int8 b) := by
    unfold readEncoderDelta
    rw [if_neg hp]
    simp [cs_set, spi_write, safe_delay_us, List.append_assoc]
  rw [e]
  simp only [to_int8, hm]
  refine ⟨trivial, ?_, ?_, trivial⟩
  · split <;> omega
  · split <;> omega

/-- Witness of C11: the response byte 0xFF on the 10 x 20 driver reads as -1. -/
theorem C11_encoder_delta_witness :
    grid10x20.panel_present ≠ 0 ∧ (255 : Nat) < 256 ∧ (readEncoderDelta 255 grid10x20).2 = -1 :=
  ⟨by decide, by decide, (C11_encoder_delta 255 grid10x20 (by decide) (by decide)).1⟩

theorem buzz_cycles_events (half n : Nat) :
    (∀ v, BusEvent.spi v ∉ buzz_cycles half n) ∧ (∀ l, BusEvent.cs l ∉ buzz_cycles half n) ∧
    wire_bytes (buzz_cycles half n) = [] ∧ waited (buzz_cycles half n) = n * (2 * half) := by
  induction n with
  | zero => simp [buzz_cycles, wire_bytes, waited]
  | succ n ih =>
    obtain ⟨h1, h2, h3, h4⟩ := ih
    refine ⟨?_, ?_, ?_, ?_⟩
    · intro v
      simp [buzz_cycles, h1 v]
    · intro l
      simp [buzz_cycles, h2 l]
    · simp [buzz_cycles, wire_bytes, h3]
    · show half + (half + waited (buzz_cycles half n)) = (n + 1) * (2 * half)
      rw [h4, Nat.add_mul n 1 (2 * half)]
      omega

/-- The `while` loop of `buzz` with enough fuel and no overflow of `elapsed_time`: it runs
`n` cycles, where `n` is the least count with `duration ≤ elapsed_time + n * period`. -/
theorem buzz_loop_run (duration period : Int) (hper : 1 ≤ period)
    (hmax : duration + period ≤ 2147483648) :
    ∀ (fuel : Nat) (elapsed : Int) (s : State), (duration - elapsed).toNat ≤ fuel →
      ∃ n : Nat, buzz_loop duration period fuel elapsed s =
          some { s with bus := s.bus ++ buzz_cycles (period / 2).toNat n } ∧
        duration ≤ elapsed + n * period ∧
        ∀ m : Nat, m < n → elapsed + m * period < duration := by
  intro fuel
  induction fuel with
  | zero =>
    intro elapsed s hf
    refine ⟨0, ?_, by simp; omega, by intro m hm; omega⟩
    have : ¬ elapsed < duration := by omega
    simp [buzz_loop, this, buzz_cycles]
  | succ fuel ih =>
    intro elapsed s hf
    by_cases hlt : elapsed < duration
    · obtain ⟨n, hn, hle, hmin⟩ := ih (elapsed + period)
        (wait_us (period / 2).toNat (buzz_pin_set 0 (wait_us (period / 2).toNat
          (buzz_pin_set 1 s)))) (by omega)
      refine ⟨n + 1, ?_, ?_, ?_⟩
      · have hov : ¬ (2147483647 < elapsed + period) := by omega
        simp only [buzz_loop, if_pos hlt, if_neg hov, hn]
        simp [wait_us, buzz_pin_set, buzz_cycles, List.append_assoc]
      · push_cast
        rw [add_mul, one_mul]
        omega
      · intro m hm
        cases m with
        | zero => simpa using hlt
        | succ m =>
          have := hmin m (by omega)
          push_cast
          rw [add_mul, one_mul]
          omega
    · refine ⟨0, ?_, by simp; omega, by intro m hm; omega⟩
      simp [buzz_loop, hlt, buzz_cycles]

theorem buzz_period_bounds (freq : Nat) (h1 : 1 ≤ freq) (h2 : freq ≤ 65535) :
    15 ≤ 1000000 / freq ∧ 1000000 / freq ≤ 1000000 := by
  constructor
  · calc 15 = 1000000 / 65535 := by decide
      _ ≤ 1000000 / freq := Nat.div_le_div_left h2 (by omega)
  · exact Nat.div_le_self _ _

/-- The local path of `buzz` for a frequency of at least 1 Hz and with no overflow of the
32-bit `long`: the call returns, having driven `n` cycles on the pin and nothing else. -/
theorem buzz_local (duration : Int) (freq : Nat) (s : State) (h1 : 1 ≤ freq)
    (h2 : freq ≤ 65535) (hlo : -2147483648 ≤ duration * 1000)
    (hhi : duration * 1000 + ((1000000 / freq : Nat) : Int) ≤ 2147483648) :
    ∃ n : Nat, buzz true duration freq s =
        some { s with bus := s.bus ++ buzz_cycles (1000000 / freq / 2) n } ∧
      duration * 1000 ≤ n * ((1000000 / freq : Nat) : Int) ∧
      ∀ m : Nat, m < n → m * ((1000000 / freq : Nat) : Int) < duration * 1000 := by
  obtain ⟨p1, p2⟩ := buzz_period_bounds freq h1 h2
  obtain ⟨n, hn, hle, hmin⟩ := buzz_loop_run (duration * 1000) ((1000000 / freq : Nat) : Int)
    (by omega) hhi (duration * 1000).toNat 0 s (by omega)
  refine ⟨n, ?_, by omega, fun m hm => by have := hmin m hm; omega⟩
  have hf : ¬ freq = 0 := by omega
  have hr : ¬ (duration * 1000 < -2147483648 ∨ 2147483647 < duration * 1000) := by omega
  have hhalf : (((1000000 / freq : Nat) : Int) / 2).toNat = 1000000 / freq / 2 := by omega
  unfold buzz
  simp only [if_true, if_neg hr, if_neg hf]
  rw [hn, hhalf]

theorem buzz_remote (duration : Int) (freq : Nat) (s : State) (hp : s.panel_present ≠ 0) :
    buzz false duration freq s =
      some { s with bus := s.bus ++ [BusEvent.cs 0, BusEvent.spi BUZZER,
        BusEvent.spi ((duration % 65536).toNat / 256), BusEvent.spi (int_bits duration),
        BusEvent.spi (freq / 256), BusEvent.spi freq, BusEvent.safe_delay_us 10,
        BusEvent.cs 1] } := by
  unfold buzz
  rw [if_neg (by decide), if_pos hp]
  simp [cs_set, spi_write, safe_delay_us, List.append_assoc]

/-- C12 (counterexample). No local buzzer pin and an Absent adapter: `buzz(100, 1000)`
returns with the driver and the trace exactly as they were; neither is the pin driven nor
is the BUZZER command sent. -/
theorem C12_no_pin_no_adapter_nothing_happens :
    State.zero.panel_present = 0 ∧ buzz false 100 1000 State.zero = some State.zero ∧
    (buzz false 100 1000 State.zero).map (fun s => s.bus) = some [] := by
  refine ⟨rfl, rfl, by decide⟩

/-- C12 (amended). The two realizations never both execute, and which one does is fixed by
the configuration.  With a local pin connected (frequency at least 1 Hz, no overflow of the
32-bit `long`) the call drives `n` square-wave cycles on the pin, `n = 0` exactly when
`duration ≤ 0`, and puts nothing on the SPI bus or chip select.  With no local pin and a
Present adapter it sends the BUZZER command in one frame and never touches the pin.  With
no local pin and an Absent adapter it does nothing at all. -/
theorem C12_buzz_paths (duration : Int) (freq : Nat) (s : State) :
    (1 ≤ freq → freq ≤ 65535 → -2147483648 ≤ duration * 1000 →
      duration * 1000 + ((1000000 / freq : Nat) : Int) ≤ 2147483648 →
      ∃ n : Nat, buzz true duration freq s =
          some { s with bus := s.bus ++ buzz_cycles (1000000 / freq / 2) n } ∧
        (n = 0 ↔ duration ≤ 0) ∧
        (∀ v, BusEvent.spi v ∉ buzz_cycles (1000000 / freq / 2) n) ∧
        (∀ l, BusEvent.cs l ∉ buzz_cycles (1000000 / freq / 2) n)) ∧
    (s.panel_present ≠ 0 →
      ∃ added, buzz false duration freq s = some { s with bus := s.bus ++ added } ∧
        BusEvent.spi BUZZER ∈ added ∧ ∀ l, BusEvent.buzz_pin l ∉ added) ∧
    (s.panel_present = 0 → buzz false duration freq s = some s) := by
  refine ⟨?_, ?_, ?_⟩
  · intro h1 h2 hlo hhi
    obtain ⟨n, hn, hle, hmin⟩ := buzz_local duration freq s h1 h2 hlo hhi
    obtain ⟨e1, e2, _, _⟩ := buzz_cycles_events (1000000 / freq / 2) n
    refine ⟨n, hn, ?_, e1, e2⟩
    constructor
    · intro h0
      subst h0
      simp at hle
      omega
    · intro hd
      cases n with
      | zero => rfl
      | succ n =>
        have := hmin 0 (by omega)
        simp at this
        omega
  · intro hp
    refine ⟨_, buzz_remote duration freq s hp, by simp, by simp⟩
  · intro ha
    unfold buzz
    rw [if_neg (by decide), if_neg (by simp [ha])]

/-- Witness of C12 (amended): on a driver with no adapter, one millisecond at 1 kHz
returns on the local pin and does nothing without it. -/
theorem C12_buzz_paths_witness :
    State.zero.panel_present = 0 ∧ buzz false 1 1000 State.zero = some State.zero ∧
    (buzz true 1 1000 State.zero).isSome = true := by
  refine ⟨rfl, (C12_buzz_paths 1 1000 State.zero).2.2 rfl, ?_⟩
  obtain ⟨n, hn, _⟩ := (C12_buzz_paths 1 1000 State.zero).1 (by decide) (by decide)
    (by decide) (by decide)
  rw [hn]
  rfl

/-- C13. Remote buzzer payload on a Present driver with no local pin: the call appends one
frame (select, five transfers, settle, deselect) whose bytes on the wire are 0x04, the
high and low byte of `d = duration mod 2^16`, then the high and low byte of `freq`. -/
theorem C13_remote_buzz_payload (duration : Int) (freq : Nat) (s : State)
    (hp : s.panel_present ≠ 0) :
    ∃ added, buzz false duration freq s = some { s with bus := s.bus ++ added } ∧
      added = [BusEvent.cs 0, BusEvent.spi BUZZER,
        BusEvent.spi ((duration % 65536).toNat / 256), BusEvent.spi (int_bits duration),
        BusEvent.spi (freq / 256), BusEvent.spi freq, BusEvent.safe_delay_us 10,
        BusEvent.cs 1] ∧
      wire_bytes added = [0x04, (duration % 65536).toNat / 256 % 256,
        (duration % 65536).toNat % 256, freq / 256 % 256, freq % 256] := by
  refine ⟨_, buzz_remote duration freq s hp, rfl, ?_⟩
  have e : int_bits duration % 256 = (duration % 65536).toNat % 256 := by
    unfold int_bits
    omega
  simp only [wire_bytes, e]
  rfl

/-- Witness of C13: 300 ms at 0x1234 Hz on the 10 x 20 driver puts 04 01 2C 12 34 on
the wire. -/
theorem C13_remote_buzz_payload_witness :
    grid10x20.panel_present ≠ 0 ∧
    (buzz false 300 0x1234 grid10x20).map
      (fun s => wire_bytes (s.bus.drop grid10x20.bus.length)) =
      some [0x04, 0x01, 0x2C, 0x12, 0x34] := by
  refine ⟨by decide, ?_⟩
  obtain ⟨added, h, _, hw⟩ := C13_remote_buzz_payload 300 0x1234 grid10x20 (by decide)
  rw [h]
  simp only [Option.map_some', List.drop_left, hw]
  decide

/-- C14 (counterexample). On a driver that is Absent, `setCursor`, `home`, `setLed`,
`bltGlyph` and `setContrast` still change the cursor, the LED mask, the icon mask, the decay
counter and the contrast. -/
theorem C14_absent_fields_still_change :
    State.zero.panel_present = 0 ∧
    State.zero.tx = 0 ∧ (setCursor 3 4 State.zero).tx = 3 ∧ (setCursor 3 4 State.zero).ty = 4 ∧
    (setCursor 3 4 State.zero).panel_present = 0 ∧ (home (setCursor 3 4 State.zero)).tx = 0 ∧
    State.zero.ledBits = 0 ∧ (setLed (LedIds.mk 1 2 3 4) 2 true State.zero).ledBits = 2 ∧
    State.zero.picBits = 0 ∧ (bltGlyph 0 0 80 0 State.zero).picBits = 1 ∧
    State.zero.gliph_update_cnt = 0 ∧ (bltGlyph 27 0 10 10 State.zero).gliph_update_cnt = 20 ∧
    State.zero.contrast = 0 ∧ (setContrast 99 State.zero).contrast = 99 := by
  decide

/-- C14 (amended). On an Absent driver `write`, `clear` and `on_refresh` leave every field
unchanged.  `setCursor` and `home` change the cursor only, `setLed` the LED mask only,
`bltGlyph` the icon mask and the decay counter only, `setContrast` the cached contrast only;
each of them leaves the buffer, the bus trace and all other fields unchanged. -/
theorem C14_absent_state (s : State) (ha : s.panel_present = 0) (ids : LedIds)
    (line : Nat → Nat) (len led x y w h : Int) (col row c : Nat) (onoff now : Bool) :
    write line len s = s ∧ clear s = s ∧ on_refresh now s = s ∧
    setCursor col row s = { s with tx := col, ty := row } ∧
    home s = { s with tx := 0, ty := 0 } ∧
    setLed ids led onoff s = { s with ledBits := (setLed ids led onoff s).ledBits } ∧
    bltGlyph x y w h s = { s with picBits := (bltGlyph x y w h s).picBits,
                                   gliph_update_cnt := (bltGlyph x y w h s).gliph_update_cnt } ∧
    setContrast c s = { s with contrast := c } := by
  refine ⟨?_, ?_, ?_, rfl, rfl, ?_, ?_, ?_⟩
  · unfold write; rw [if_pos ha]
  · unfold clear; rw [if_pos ha]
  · unfold on_refresh; rw [if_pos ha]
  · unfold setLed
    split <;> split <;> try rfl
    all_goals split <;> try rfl
    all_goals split <;> try rfl
    all_goals split <;> rfl
  · unfold bltGlyph
    split
    · rfl
    · simp only
      split <;> try rfl
      all_goals split <;> try rfl
      all_goals split <;> try rfl
      all_goals split <;> try rfl
      all_goals split <;> rfl
  · unfold setContrast
    simp only
    rw [if_pos ha]

/-- Witness of C14 (amended): a text write on the driver that never found its adapter. -/
theorem C14_absent_state_witness :
    State.zero.panel_present = 0 ∧ write READY 5 State.zero = State.zero :=
  ⟨rfl, (C14_absent_state State.zero rfl (LedIds.mk 1 2 3 4) READY 5 1 0 0 10 10 0 0 0
    true true).1⟩

/-- Fan overlay during a transmit on a Present driver, in terms of the byte `send_pic`
reads at index 20 (`marker_byte`).  If that byte is 'X' and `has_fan` is true, the cell
`cols * 4` holds `fan_percent mod 256` in the buffer that is streamed; otherwise no
character cell is modified; in both cases every character cell other than `cols * 4` is as
before the call.  The byte read is the byte the buffer held before the call whenever index
20 is a character cell. -/
theorem fan_overlay_as_read (now : Bool) (s : State) (hp : Present s)
    (ht : now = true ∨ (s.refresh_counts + 1) % 256 = 2) :
    (marker_byte s = 88 ∧ s.has_fan = true →
      (on_refresh now s).framebuffer (s.chars_per_line * 4) = s.fan_percent % 256) ∧
    (¬ (marker_byte s = 88 ∧ s.has_fan = true) →
      ∀ i, i < s.chars_per_line * s.text_lines →
        (on_refresh now s).framebuffer i = s.framebuffer i) ∧
    (∀ i, i < s.chars_per_line * s.text_lines → i ≠ s.chars_per_line * 4 →
      (on_refresh now s).framebuffer i = s.framebuffer i) ∧
    (20 < s.chars_per_line * s.text_lines → marker_byte s = s.framebuffer 20) ∧
    (on_refresh now s).bus = s.bus ++ frame (on_refresh now s).framebuffer s.fbsize := by
  obtain ⟨h1, _, _, _, hfb⟩ := hp
  have hne : s.panel_present ≠ 0 := by omega
  have hfr : (on_refresh now s).framebuffer =
      if marker_byte s = 88 ∧ s.has_fan = true then
        store (store (store s.framebuffer (s.fbsize - 2) (s.picBits &&& PIC_MASK))
          (s.fbsize - 1) (s.ledBits &&& LED_MASK)) (s.chars_per_line * 4) (s.fan_percent % 256)
      else
        store (store s.framebuffer (s.fbsize - 2) (s.picBits &&& PIC_MASK))
          (s.fbsize - 1) (s.ledBits &&& LED_MASK) := by
    rw [on_refresh_send now s hne ht]
    simp only [send_pic_framebuffer]
    rfl
  have cell : ∀ i, i < s.chars_per_line * s.text_lines →
      store (store s.framebuffer (s.fbsize - 2) (s.picBits &&& PIC_MASK))
        (s.fbsize - 1) (s.ledBits &&& LED_MASK) i = s.framebuffer i := by
    intro i hi
    have e1 : ¬ i = s.fbsize - 1 := by omega
    have e2 : ¬ i = s.fbsize - 2 := by omega
    simp only [store_apply, if_neg e1, if_neg e2]
  refine ⟨?_, ?_, ?_, ?_, (on_refresh_send_bus now s hne ht).1⟩
  · intro hm
    rw [hfr, if_pos hm, store_apply, if_pos rfl]
  · intro hm i hi
    rw [hfr, if_neg hm]
    exact cell i hi
  · intro i hi hne4
    rw [hfr]
    split
    · rw [store_apply, if_neg hne4]
      exact cell i hi
    · exact cell i hi
  · intro h20
    exact cell 20 h20

/-- Fan overlay on a geometry of more than 20 character cells, where the marker index 20
is a character cell: if the buffer byte at index 20 is 'X' and `has_fan` is true, the cell
`cols * 4` of the streamed buffer holds `fan_percent mod 256`; otherwise no character cell
is modified; in both cases no character cell other than `cols * 4` changes. -/
theorem fan_overlay_character_marker (now : Bool) (s : State) (hp : Present s)
    (ht : now = true ∨ (s.refresh_counts + 1) % 256 = 2)
    (h20 : 20 < s.chars_per_line * s.text_lines) :
    (s.framebuffer 20 = 88 ∧ s.has_fan = true →
      (on_refresh now s).framebuffer (s.chars_per_line * 4) = s.fan_percent % 256) ∧
    (¬ (s.framebuffer 20 = 88 ∧ s.has_fan = true) →
      ∀ i, i < s.chars_per_line * s.text_lines →
        (on_refresh now s).framebuffer i = s.framebuffer i) ∧
    (∀ i, i < s.chars_per_line * s.text_lines → i ≠ s.chars_per_line * 4 →
      (on_refresh now s).framebuffer i = s.framebuffer i) := by
  obtain ⟨f1, f2, f3, f4, _⟩ := fan_overlay_as_read now s hp ht
  rw [f4 h20] at f1 f2
  exact ⟨f1, f2, f3⟩

/-- The main screen of the 10 x 20 driver with a fan at 300 percent: cell 80 is streamed as
300 mod 256 = 44. -/
theorem fan_overlay_main_screen :
    Present fan_screen ∧ fan_screen.framebuffer 20 = 88 ∧ fan_screen.has_fan = true ∧
    (on_refresh true fan_screen).framebuffer (fan_screen.chars_per_line * 4) = 44 :=
  ⟨by decide, by decide, by decide,
    (fan_overlay_character_marker true fan_screen (by decide) (Or.inl rfl) (by decide)).1
      ⟨by decide, by decide⟩⟩

theorem waited_append (a b : List BusEvent) : waited (a ++ b) = waited a + waited b := by
  induction a with
  | nil => simp [waited]
  | cons e rest ih =>
    cases e <;> simp [waited, ih, Nat.add_assoc]

set_option maxRecDepth 100000 in
/-- C16 (counterexample). Local pin, `freq = 65535` (period 15 microseconds, half period
7), `duration = 1` ms: the call makes 67 cycles and the arguments of its `wait_us` calls
add up to 938 microseconds, less than the 1000 requested. -/
theorem C16_odd_period_waits_less :
    1000000 / 65535 = 15 ∧ 15 / 2 = 7 ∧
    (buzz true 1 65535 State.zero).map (fun s => waited s.bus) = some 938 ∧
    938 < 1 * 1000 := by
  refine ⟨by decide, by decide, ?_, by decide⟩
  decide

/-- C16 (amended). With a local buzzer pin, a frequency in `[1, 65535]` and a duration
`≥ 0` ms for which neither `duration * 1000` nor the running `elapsed_time` leaves the
32-bit `long`, `buzz` returns after `n` cycles, `n` being the least count with
`n * (1000000 / freq) ≥ duration * 1000`.  The total time waited is
`n * 2 * ((1000000 / freq) / 2)` microseconds: at least `duration * 1000 - n`, and at least
`duration * 1000` when the period `1000000 / freq` is even. -/
theorem C16_local_buzz_duration (duration : Int) (freq : Nat) (s : State) (h1 : 1 ≤ freq)
    (h2 : freq ≤ 65535) (h0 : 0 ≤ duration)
    (hhi : duration * 1000 + ((1000000 / freq : Nat) : Int) ≤ 2147483648) :
    ∃ (n : Nat) (s1 : State), buzz true duration freq s = some s1 ∧
      s1.bus = s.bus ++ buzz_cycles (1000000 / freq / 2) n ∧
      duration * 1000 ≤ n * ((1000000 / freq : Nat) : Int) ∧
      (∀ m : Nat, m < n → m * ((1000000 / freq : Nat) : Int) < duration * 1000) ∧
      waited s1.bus = waited s.bus + n * (2 * (1000000 / freq / 2)) ∧
      duration * 1000 ≤ ((n * (2 * (1000000 / freq / 2)) : Nat) : Int) + n ∧
      (1000000 / freq % 2 = 0 →
        duration * 1000 ≤ ((n * (2 * (1000000 / freq / 2)) : Nat) : Int)) := by
  obtain ⟨n, hn, hle, hmin⟩ := buzz_local duration freq s h1 h2 (by omega) hhi
  refine ⟨n, _, hn, rfl, hle, hmin, ?_, ?_, ?_⟩
  · show waited (s.bus ++ buzz_cycles (1000000 / freq / 2) n) = _
    rw [waited_append, (buzz_cycles_events (1000000 / freq / 2) n).2.2.2]
  · have hpar : 2 * (1000000 / freq / 2) = 1000000 / freq ∨
        2 * (1000000 / freq / 2) + 1 = 1000000 / freq := by omega
    rcases hpar with e | e
    · rw [e, Nat.cast_mul]
      omega
    · have e2 : n * (1000000 / freq) = n * (2 * (1000000 / freq / 2)) + n := by
        rw [← e, Nat.mul_add, Nat.mul_one]
        rw [e]
      have e3 : (n : Int) * ((1000000 / freq : Nat) : Int) =
          ((n * (2 * (1000000 / freq / 2)) : Nat) : Int) + n := by
        rw [← Nat.cast_mul, e2, Nat.cast_add]
      rw [← e3]
      exact hle
  · intro hev
    have e : 2 * (1000000 / freq / 2) = 1000000 / freq := by omega
    rw [e, Nat.cast_mul]
    exact hle

/-- Witness of C16 (amended): one millisecond at 1 kHz on the local pin returns. -/
theorem C16_local_buzz_duration_witness :
    (1 : Nat) ≤ 1000 ∧ (1000 : Nat) ≤ 65535 ∧ (0 : Int) ≤ 1 ∧
    (buzz true 1 1000 State.zero).isSome = true := by
  refine ⟨by decide, by decide, by decide, ?_⟩
  obtain ⟨n, s1, h, _⟩ := C16_local_buzz_duration 1 1000 State.zero (by decide) (by decide)
    (by decide) (by decide)
  rw [h]
  rfl

/-- Every index `clear` and `send_pic` subscript lies inside the buffer as soon as the
geometry has at least 19 character cells, which every geometry of two or more columns
has. -/
theorem indices_in_bounds (s : State) (hp : Present s)
    (hc : 19 ≤ s.chars_per_line * s.text_lines) :
    (∀ i ∈ clear_indices s, i < s.fbsize) ∧ (∀ i ∈ send_pic_indices s, i < s.fbsize) := by
  obtain ⟨_, h10, _, _, hfb⟩ := hp
  have hmul : s.chars_per_line * 10 ≤ s.chars_per_line * s.text_lines :=
    Nat.mul_le_mul_left _ h10
  constructor
  · intro i hi
    simp only [clear_indices, List.mem_append, List.mem_range, List.mem_cons,
      List.mem_singleton, List.not_mem_nil, or_false] at hi
    omega
  · intro i hi
    simp only [send_pic_indices, List.mem_append, List.mem_range, List.mem_cons,
      List.mem_singleton, List.not_mem_nil, or_false] at hi
    rcases hi with (h | h) | h
    · omega
    · split at h
      · simp only [List.mem_singleton] at h
        omega
      · simp at h
    · exact h

/-- C17 (failing input). Rows response 10 with columns response 0, and rows response 10
with columns response 1, are both accepted; the buffer sizes are 2 and 12, and `send_pic`
subscripts the marker index 20, which is not below either size. -/
theorem C17_marker_index_outside_buffer :
    Present (detect_panel 10 0 State.zero) ∧ (detect_panel 10 0 State.zero).fbsize = 2 ∧
    20 ∈ send_pic_indices (detect_panel 10 0 State.zero) ∧
    ¬ 20 < (detect_panel 10 0 State.zero).fbsize ∧
    Present (detect_panel 10 1 State.zero) ∧ (detect_panel 10 1 State.zero).fbsize = 12 ∧
    20 ∈ send_pic_indices (detect_panel 10 1 State.zero) ∧
    ¬ 20 < (detect_panel 10 1 State.zero).fbsize := by
  refine ⟨by decide, by decide, ?_, by decide, by decide, by decide, ?_, by decide⟩
  · simp [send_pic_indices]
  · simp [send_pic_indices]

/-- The loop of `write`: character `k` goes to cell `(pos + k) mod 256`, a later character
overwrites an earlier one that went to the same cell, and no other cell changes. -/
theorem write_loop_cells (line : Nat → Nat) :
    ∀ (n i pos : Nat) (fb : Nat → Nat), pos < 256 →
      (∀ k, k < n → (∀ k2, k < k2 → k2 < n → (pos + k2) % 256 ≠ (pos + k) % 256) →
        write_loop line n i pos fb ((pos + k) % 256) = line (i + k)) ∧
      (∀ j, (∀ k, k < n → (pos + k) % 256 ≠ j) → write_loop line n i pos fb j = fb j) := by
  intro n
  induction n with
  | zero =>
    intro i pos fb _
    exact ⟨fun k hk => absurd hk (Nat.not_lt_zero k), fun j _ => rfl⟩
  | succ n ih =>
    intro i pos fb hpos
    obtain ⟨ih1, ih2⟩ := ih (i + 1) ((pos + 1) % 256) (store fb pos (line i))
      (Nat.mod_lt _ (by decide))
    have shift : ∀ k, ((pos + 1) % 256 + k) % 256 = (pos + (k + 1)) % 256 := by
      intro k; omega
    constructor
    · intro k hk hlast
      cases k with
      | zero =>
        have hpos0 : (pos + 0) % 256 = pos := by omega
        rw [hpos0]
        show write_loop line n (i + 1) ((pos + 1) % 256) (store fb pos (line i)) pos = _
        rw [ih2 pos ?_, store_apply, if_pos rfl]
        · rfl
        · intro k2 hk2
          rw [shift k2]
          have := hlast (k2 + 1) (by omega) (by omega)
          rw [hpos0] at this
          exact this
      | succ k =>
        show write_loop line n (i + 1) ((pos + 1) % 256) (store fb pos (line i))
          ((pos + (k + 1)) % 256) = _
        rw [← shift k, ih1 k (by omega) ?_]
        · congr 1
          omega
        · intro k2 hk1 hk2
          rw [shift k2, shift k]
          exact hlast (k2 + 1) (by omega) (by omega)
    · intro j hj
      show write_loop line n (i + 1) ((pos + 1) % 256) (store fb pos (line i)) j = _
      rw [ih2 j ?_, store_apply, if_neg ?_]
      · intro hjp
        have := hj 0 (by omega)
        omega
      · intro k hk
        rw [shift k]
        exact hj (k + 1) (by omega)

/-- C18. The write offset is computed in 8 bits.  On a Present driver with the cursor at
`(c, r)`, `write(s, L)` stores character `k` at index `((c + r * cols) mod 256 + k) mod 256`
(a later character winning where two meet) and changes no other byte.  Consequently, when
`r * cols + c + L ≤ 256`, the `L` characters are in the cells
`[r * cols + c, r * cols + c + L)`, every other byte is unchanged, and the cursor is still
`(c, r)`. -/
theorem C18_write_offset_8bit (line : Nat → Nat) (L c r : Nat) (s : State)
    (hp : s.panel_present ≠ 0) :
    (∀ k, k < L →
      (∀ k2, k < k2 → k2 < L →
        ((c + r * s.chars_per_line) % 256 + k2) % 256
          ≠ ((c + r * s.chars_per_line) % 256 + k) % 256) →
      (write line L (setCursor c r s)).framebuffer
        (((c + r * s.chars_per_line) % 256 + k) % 256) = line k) ∧
    (∀ j, (∀ k, k < L → ((c + r * s.chars_per_line) % 256 + k) % 256 ≠ j) →
      (write line L (setCursor c r s)).framebuffer j = s.framebuffer j) ∧
    (r * s.chars_per_line + c + L ≤ 256 →
      (∀ k, k < L →
        (write line L (setCursor c r s)).framebuffer (r * s.chars_per_line + c + k) = line k) ∧
      (∀ j, j < r * s.chars_per_line + c ∨ r * s.chars_per_line + c + L ≤ j →
        (write line L (setCursor c r s)).framebuffer j = s.framebuffer j) ∧
      (write line L (setCursor c r s)).tx = c ∧ (write line L (setCursor c r s)).ty = r) := by
  have hw : write line L (setCursor c r s) =
      { s with tx := c, ty := r,
               framebuffer := write_loop line L 0 ((c + r * s.chars_per_line) % 256)
                 s.framebuffer } := by
    unfold write setCursor
    simp only
    rw [if_neg hp]
    simp
  obtain ⟨w1, w2⟩ := write_loop_cells line L 0 ((c + r * s.chars_per_line) % 256)
    s.framebuffer (Nat.mod_lt _ (by decide))
  rw [hw]
  refine ⟨?_, w2, ?_⟩
  · intro k hk hlast
    have := w1 k hk hlast
    rw [Nat.zero_add] at this
    exact this
  · intro hfit
    refine ⟨?_, ?_, rfl, rfl⟩
    · intro k hk
      have idx : ((c + r * s.chars_per_line) % 256 + k) % 256 =
          r * s.chars_per_line + c + k := by omega
      have := w1 k hk (by intro k2 h1 h2; omega)
      rw [Nat.zero_add, idx] at this
      exact this
    · intro j hj
      apply w2
      intro k hk
      omega

/-- Witness of C18: "READY" written at column 3 of row 2 of the 10 x 20 driver. -/
theorem C18_write_offset_8bit_witness :
    grid10x20.panel_present ≠ 0 ∧ 2 * grid10x20.chars_per_line + 3 + 5 ≤ 256 ∧
    (write READY (5 : Nat) (setCursor 3 2 grid10x20)).framebuffer
      (2 * grid10x20.chars_per_line + 3 + 4) = READY 4 :=
  ⟨by decide, by decide,
    ((C18_write_offset_8bit READY 5 3 2 grid10x20 (by decide)).2.2 (by decide)).1 4
      (by decide)⟩

set_option maxRecDepth 100000 in
theorem region_bit_masked : ∀ q, q < 256 → ∀ b ∈ [2, 4, 8, 16, 32],
    (q ||| b) % 256 &&& PIC_MASK &&& b = b := by
  decide

/-- The icon byte of the frames that follow a regional icon request, on a geometry with at
least one column: a transmit preceded by at most 20 others since the request carries the
regional bit, a transmit preceded by 21 or more carries icon byte 0. -/
theorem icon_byte_lifetime (x y w h : Int) (b : Nat) (s : State) (hp : Present s)
    (hc : 0 < s.chars_per_line) (hw : w ≠ 80) (hx : (x, b) ∈ icon_regions)
    (nows : List Bool) (now : Bool)
    (hbus : (on_refresh now (refreshes nows (bltGlyph x y w h s))).bus
      ≠ (refreshes nows (bltGlyph x y w h s)).bus) :
    (frames (refreshes nows (bltGlyph x y w h s)).bus ≤ frames s.bus + 20 →
      (on_refresh now (refreshes nows (bltGlyph x y w h s))).framebuffer (s.fbsize - 2)
        &&& b = b) ∧
    (frames s.bus + 20 < frames (refreshes nows (bltGlyph x y w h s)).bus →
      (on_refresh now (refreshes nows (bltGlyph x y w h s))).framebuffer (s.fbsize - 2)
        = 0) := by
  obtain ⟨hb, hmem⟩ := bltGlyph_region x y w h b s hw hx
  have hbus0 : (bltGlyph x y w h s).bus = s.bus := by rw [hb]
  have hcnt : (bltGlyph x y w h s).gliph_update_cnt = 20 := by rw [hb]
  have hpic : (bltGlyph x y w h s).picBits = (s.picBits ||| b) % 256 := by rw [hb]
  have hp1 : Present (bltGlyph x y w h s) := by rw [hb]; exact hp
  have hfb1 : (bltGlyph x y w h s).fbsize = s.fbsize := by rw [hb]
  have hc1 : (bltGlyph x y w h s).chars_per_line = s.chars_per_line := by rw [hb]
  obtain ⟨_, g2, g3, _, _⟩ := refreshes_geometry nows (bltGlyph x y w h s)
  have hi := (on_refresh_icon_byte now _ (refreshes_present nows _ hp1)
    (by rw [g3, hc1]; exact hc) hbus).1
  rw [g2, hfb1] at hi
  rw [hi]
  constructor
  · intro hle
    rw [refreshes_keep nows _ (by rw [hbus0, hcnt]; exact hle), hpic]
    have e : (s.picBits ||| b) % 256 = (s.picBits % 256 ||| b) % 256 := by
      rw [or_mod_256, or_mod_256 (s.picBits % 256), Nat.mod_mod]
    rw [e]
    exact region_bit_masked (s.picBits % 256) (Nat.mod_lt _ (by decide)) b hmem
  · intro hlt
    rw [refreshes_expire nows _ (by rw [hbus0, hcnt]; exact hlt)]
    rfl

set_option maxRecDepth 100000 in
/-- C19 (failing input). Rows response 10, columns response 0, a fan present at 1 percent,
an 'X' in the byte 20 places after the buffer start, then the hotend-2 icon requested
(icon mask 0x04).  The first transmit carries icon byte 1, without the regional bit, and
the 22nd transmit carries icon byte 1 as well, not 0. -/
theorem C19_icon_byte_lost_without_columns :
    Present zero_columns_icon ∧ zero_columns_icon.fbsize = 2 ∧
    zero_columns_icon.picBits &&& PIC_MASK = 4 ∧
    (on_refresh true zero_columns_icon).bus = zero_columns_icon.bus ++
      [BusEvent.cs 0, BusEvent.spi LCD_WRITE, BusEvent.spi 1, BusEvent.spi 0,
        BusEvent.wait_us 10, BusEvent.cs 1] ∧
    (on_refresh true (refreshes (List.replicate 21 true) zero_columns_icon)).bus =
      (refreshes (List.replicate 21 true) zero_columns_icon).bus ++
        [BusEvent.cs 0, BusEvent.spi LCD_WRITE, BusEvent.spi 1, BusEvent.spi 0,
          BusEvent.wait_us 10, BusEvent.cs 1] := by
  refine ⟨by decide, by decide, by decide, by decide, by decide⟩

theorem stream_succ (mem : Nat → Nat) (n : Nat) :
    stream mem (n + 1) = stream mem n ++ [BusEvent.spi (mem n)] := by
  unfold stream
  rw [List.range_succ, List.map_append]
  rfl

/-- The LED byte `send_pic` leaves at `fbsize - 1`, for every accepted geometry: the
overlay cell `cols * 4` never reaches the last byte of the buffer. -/
theorem send_pic_led_byte (s : State) (h : Present s) :
    (send_pic s).framebuffer (s.fbsize - 1) = s.ledBits &&& LED_MASK := by
  obtain ⟨_, h10, _, _, hfb⟩ := h
  have hmul : s.chars_per_line * 10 ≤ s.chars_per_line * s.text_lines :=
    Nat.mul_le_mul_left _ h10
  have h2 : ¬ s.fbsize - 1 = s.chars_per_line * 4 := by omega
  rw [send_pic_framebuffer]
  split
  · rw [store_apply, if_neg h2, store_apply, if_pos rfl]
  · rw [store_apply, if_pos rfl]

/-- The LED byte of a transmit, for every accepted geometry: the call that changes the bus
appends one frame, streamed from the buffer it leaves, whose last byte is the masked LED
mask. -/
theorem on_refresh_led_byte (now : Bool) (s : State) (h : Present s)
    (hbus : (on_refresh now s).bus ≠ s.bus) :
    (on_refresh now s).framebuffer (s.fbsize - 1) = s.ledBits &&& LED_MASK ∧
    (on_refresh now s).bus = s.bus ++ frame (on_refresh now s).framebuffer s.fbsize := by
  have hp : s.panel_present ≠ 0 := by
    have := h.1
    omega
  by_cases hs : now = true ∨ (s.refresh_counts + 1) % 256 = 2
  · refine ⟨?_, (on_refresh_send_bus now s hp hs).1⟩
    rw [on_refresh_send now s hp hs]
    exact send_pic_led_byte { s with refresh_counts := (s.refresh_counts + 1) % 256 } h
  · rw [on_refresh_skip now s hp hs] at hbus
    exact absurd rfl hbus

/-- C20. `clear()` does not reset the LED mask.  For every Present state with LED mask
`m`, `clear()` leaves the mask equal to `m` and zeroes only the LED byte of the buffer;
with no `setLed` call in between, every later transmit (the next one included) ends its
frame with the LED byte `m & 0x0F` again. -/
theorem C20_clear_keeps_led_mask (s : State) (m : Nat) (hp : Present s)
    (hm : s.ledBits = m) :
    (clear s).ledBits = m ∧ (clear s).framebuffer (s.fbsize - 1) = 0 ∧
    ∀ (nows : List Bool) (now : Bool),
      (on_refresh now (refreshes nows (clear s))).bus ≠ (refreshes nows (clear s)).bus →
      (on_refresh now (refreshes nows (clear s))).framebuffer (s.fbsize - 1)
        = m &&& LED_MASK ∧
      (on_refresh now (refreshes nows (clear s))).bus =
        (refreshes nows (clear s)).bus ++
          [BusEvent.cs 0, BusEvent.spi LCD_WRITE] ++
          stream (on_refresh now (refreshes nows (clear s))).framebuffer (s.fbsize - 1) ++
          [BusEvent.spi (m &&& LED_MASK)] ++ [BusEvent.wait_us 10, BusEvent.cs 1] := by
  have hne : ¬ s.panel_present = 0 := by have := hp.1; omega
  have hcl : clear s =
      { s with framebuffer := store (store (memset s.framebuffer 32 (s.fbsize - 2))
                 (s.fbsize - 1) 0) (s.fbsize - 2) 0,
               tx := 0, ty := 0, picBits := 0, gliph_update_cnt := 0 } := by
    unfold clear
    rw [if_neg hne]
  have hpc : Present (clear s) := by rw [hcl]; exact hp
  have hfs : (clear s).fbsize = s.fbsize := by rw [hcl]
  have hled : (clear s).ledBits = m := by rw [hcl]; exact hm
  have hge : s.fbsize = (s.fbsize - 1) + 1 := by have := hp.2.2.2.2; omega
  refine ⟨hled, by rw [hcl]; simp [store_apply], ?_⟩
  intro nows now hbus
  obtain ⟨_, g2, _, _, g5⟩ := refreshes_geometry nows (clear s)
  obtain ⟨hbyte, hframe⟩ := on_refresh_led_byte now (refreshes nows (clear s))
    (refreshes_present nows (clear s) hpc) hbus
  rw [g2, hfs, g5, hled] at hbyte
  rw [g2, hfs] at hframe
  refine ⟨hbyte, ?_⟩
  rw [hframe]
  unfold frame
  rw [hge, stream_succ, ← hge, hbyte]
  simp [List.append_assoc]

/-- Witness of C20: the fan and hot LEDs lit on the 10 x 20 driver, then `clear()` and a
forced refresh; the frame ends with LED byte 12. -/
theorem C20_clear_keeps_led_mask_witness :
    Present ({ grid10x20 with ledBits := 12 } : State) ∧
    (clear { grid10x20 with ledBits := 12 }).framebuffer 201 = 0 ∧
    (on_refresh true (refreshes [] (clear { grid10x20 with ledBits := 12 }))).framebuffer 201
      = 12 &&& LED_MASK :=
  ⟨by decide, by decide,
    ((C20_clear_keeps_led_mask { grid10x20 with ledBits := 12 } 12 (by decide) rfl).2.2
      [] true (by decide)).1⟩

end TFTGLCDAdapter
